import Mathlib

/-!
Verification development for the weibiaoTool knowledge-graph pipeline.

This file gives a shallow embedding, in Lean 4, of the core of the
repository: the taxonomy normalizer (`KnowledgeService._map_entity_type`,
`_map_relation_type`), the LLM response parser
(`KnowledgeService._parse_llm_response`), the extraction orchestrator
(`KnowledgeService._extract_knowledge_with_llm`), the graph model and its
merge operation (`KnowledgeGraph.merge_with` in `models/knowledge.py`),
the in-memory query engine (`QueryService._execute_query_on_graph`) and
the save/load pair (`KnowledgeService.save_knowledge_graph` /
`load_knowledge_graph`).

Python strings are modelled as `List Char`.  Python `datetime.now()` is
modelled as a logical clock (a `Nat` drawn from a counter); no claim
depends on concrete time values.  `merge_with` mutates shared pydantic
objects in place (pydantic v2 passes model instances through by
reference), so it is embedded against an explicit object store in which
graphs hold references (indices) to entity and relation objects.
-/

/-- Python strings, modelled as lists of characters. -/
abbrev Str := List Char

/-- Coerce a Lean string literal to the `Str` model. -/
def cs (s : String) : Str := s.data

/-- Left brace character (written via its code point). -/
def lbrace : Char := Char.ofNat 123

/-- Right brace character (written via its code point). -/
def rbrace : Char := Char.ofNat 125

/-- Python `str.isspace` characters relevant to `strip`/`split`:
space, tab, newline, carriage return, vertical tab, form feed. -/
def pySpace (c : Char) : Bool :=
  c = ' ' || c = '\t' || c = '\n' || c = '\r' || c = Char.ofNat 11 || c = Char.ofNat 12

/-- Python `str.lower` (ASCII; all relevant inputs are ASCII). -/
def pyLower (s : Str) : Str := s.map Char.toLower

/-- Python `str.upper` (ASCII). -/
def pyUpper (s : Str) : Str := s.map Char.toUpper

/-- Python `str.strip()`: drop leading and trailing whitespace. -/
def pyStrip (s : Str) : Str :=
  ((s.dropWhile pySpace).reverse.dropWhile pySpace).reverse

/-- Python `str.capitalize()`: first character upper-cased, rest lower-cased. -/
def pyCapitalize (s : Str) : Str :=
  match s with
  | [] => []
  | c :: rest => Char.toUpper c :: pyLower rest

/-- Python `str.split()` with no argument: split on whitespace runs,
dropping empty pieces. -/
def pySplitWs (s : Str) : List Str :=
  let step := fun (c : Char) (st : Str × List Str) =>
    if pySpace c then
      match st.1 with
      | [] => ([], st.2)
      | w => ([], w :: st.2)
    else (c :: st.1, st.2)
  let r := s.foldr step ([], [])
  match r.1 with
  | [] => r.2
  | w => w :: r.2

/-- Python `" ".join(ws)`. -/
def pyJoinSpace (ws : List Str) : Str := List.intercalate (cs " ") ws

/-- The name normalization of `Entity.normalize_name`:
`self.name.strip().lower()` then `" ".join(normalized.split())`. -/
def pyNormalizeName (name : Str) : Str :=
  pyJoinSpace (pySplitWs (pyLower (pyStrip name)))

/-- Python truthiness of an optional string (`None` and `""` are falsy). -/
def pyTruthyStr (o : Option Str) : Bool :=
  match o with
  | some (_ :: _) => true
  | _ => false

/-- Python `a or b` on optional strings. -/
def pyOrStr (a b : Option Str) : Option Str :=
  if pyTruthyStr a then a else b

/-- `EntityType` from `models/knowledge.py` (lines 13-26): the enum has
exactly these twelve members; it has no person/tool/location/time members. -/
inductive EntityType where
  | equipment | component | procedure | standard | material | condition
  | error | cause | solution | maintenance | inspection | other
deriving DecidableEq

/-- The string tag of an `EntityType` member. -/
def EntityType.value : EntityType → Str
  | .equipment => cs "equipment"
  | .component => cs "component"
  | .procedure => cs "procedure"
  | .standard => cs "standard"
  | .material => cs "material"
  | .condition => cs "condition"
  | .error => cs "error"
  | .cause => cs "cause"
  | .solution => cs "solution"
  | .maintenance => cs "maintenance"
  | .inspection => cs "inspection"
  | .other => cs "other"

/-- All members of `EntityType`. -/
def entityTypeMembers : List EntityType :=
  [.equipment, .component, .procedure, .standard, .material, .condition,
   .error, .cause, .solution, .maintenance, .inspection, .other]

/-- `EntityType(s)` construction: returns the member with tag `s`, or
`none` where Python raises `ValueError`. -/
def entityTypeOfString (s : Str) : Option EntityType :=
  entityTypeMembers.find? (fun t => t.value == s)

/-- `RelationType` from `models/knowledge.py` (lines 29-41): the enum has
exactly these eleven members; in particular it has no `other` member and
none of the `compiled_by` ... `prevents` tags. -/
inductive RelationType where
  | part_of | used_in | related_to | causes | is_solution_for | requires
  | results_in | checked_by | maintained_by | follows | depends_on
deriving DecidableEq

/-- The string tag of a `RelationType` member. -/
def RelationType.value : RelationType → Str
  | .part_of => cs "part_of"
  | .used_in => cs "used_in"
  | .related_to => cs "related_to"
  | .causes => cs "causes"
  | .is_solution_for => cs "is_solution_for"
  | .requires => cs "requires"
  | .results_in => cs "results_in"
  | .checked_by => cs "checked_by"
  | .maintained_by => cs "maintained_by"
  | .follows => cs "follows"
  | .depends_on => cs "depends_on"

/-- All members of `RelationType`. -/
def relationTypeMembers : List RelationType :=
  [.part_of, .used_in, .related_to, .causes, .is_solution_for, .requires,
   .results_in, .checked_by, .maintained_by, .follows, .depends_on]

/-- `RelationType(s)` construction: returns the member with tag `s`, or
`none` where Python raises `ValueError`. -/
def relationTypeOfString (s : Str) : Option RelationType :=
  relationTypeMembers.find? (fun t => t.value == s)

/-- First-match association lookup, modelling a Python dict literal with
pairwise-distinct keys. -/
def assocLookup (tbl : List (Str × Str)) (k : Str) : Option Str :=
  (tbl.find? (fun p => p.1 == k)).map (fun p => p.2)

/-- The `type_mapping` dict of `KnowledgeService._map_entity_type`
(`services/knowledge_service.py` lines 377-480), in source order. -/
def entityTypeMapping : List (Str × Str) :=
  [(cs "person", cs "person"), (cs "people", cs "person"),
   (cs "worker", cs "person"), (cs "operator", cs "person"),
   (cs "technician", cs "person"), (cs "engineer", cs "person"),
   (cs "Person", cs "person"), (cs "People", cs "person"),
   (cs "Worker", cs "person"), (cs "Operator", cs "person"),
   (cs "Technician", cs "person"), (cs "Engineer", cs "person"),
   (cs "tool", cs "tool"), (cs "tools", cs "tool"),
   (cs "instrument", cs "tool"), (cs "device", cs "tool"),
   (cs "equipment", cs "equipment"),
   (cs "Tool", cs "tool"), (cs "Tools", cs "tool"),
   (cs "Instrument", cs "tool"), (cs "Device", cs "tool"),
   (cs "Equipment", cs "equipment"),
   (cs "machine", cs "equipment"), (cs "motor", cs "equipment"),
   (cs "pump", cs "equipment"), (cs "valve", cs "equipment"),
   (cs "belt", cs "equipment"), (cs "conveyor", cs "equipment"),
   (cs "Machine", cs "equipment"), (cs "Motor", cs "equipment"),
   (cs "Pump", cs "equipment"), (cs "Valve", cs "equipment"),
   (cs "Belt", cs "equipment"), (cs "Conveyor", cs "equipment"),
   (cs "component", cs "component"), (cs "part", cs "component"),
   (cs "assembly", cs "component"),
   (cs "Component", cs "component"), (cs "Part", cs "component"),
   (cs "Assembly", cs "component"),
   (cs "procedure", cs "procedure"), (cs "process", cs "procedure"),
   (cs "operation", cs "procedure"), (cs "step", cs "procedure"),
   (cs "Procedure", cs "procedure"), (cs "Process", cs "procedure"),
   (cs "Operation", cs "procedure"), (cs "Step", cs "procedure"),
   (cs "material", cs "material"), (cs "substance", cs "material"),
   (cs "oil", cs "material"), (cs "lubricant", cs "material"),
   (cs "Material", cs "material"), (cs "Substance", cs "material"),
   (cs "Oil", cs "material"), (cs "Lubricant", cs "material"),
   (cs "location", cs "location"), (cs "place", cs "location"),
   (cs "position", cs "location"), (cs "site", cs "location"),
   (cs "Location", cs "location"), (cs "Place", cs "location"),
   (cs "Position", cs "location"), (cs "Site", cs "location"),
   (cs "time", cs "time"), (cs "date", cs "time"),
   (cs "period", cs "time"), (cs "duration", cs "time"),
   (cs "Time", cs "time"), (cs "Date", cs "time"),
   (cs "Period", cs "time"), (cs "Duration", cs "time"),
   (cs "other", cs "other"), (cs "unknown", cs "other"),
   (cs "Other", cs "other"), (cs "Unknown", cs "other")]

/-- The capitalized-name list in step 3 of `_map_entity_type`
(line 493 of `services/knowledge_service.py`). -/
def entityCapitalizedNames : List Str :=
  [cs "Person", cs "Tool", cs "Equipment", cs "Component", cs "Procedure",
   cs "Standard", cs "Material", cs "Condition", cs "Error", cs "Cause",
   cs "Solution", cs "Maintenance", cs "Inspection", cs "Location", cs "Time"]

/-- `KnowledgeService._map_entity_type`: exact table lookup, then
lower+strip lookup, then the capitalized-variant fallback, else `other`. -/
def mapEntityType (entityType : Str) : Str :=
  match assocLookup entityTypeMapping entityType with
  | some v => v
  | none =>
    let normalizedType := pyStrip (pyLower entityType)
    match assocLookup entityTypeMapping normalizedType with
    | some v => v
    | none =>
      if entityCapitalizedNames.contains (pyCapitalize entityType) then
        normalizedType
      else cs "other"

/-- The `type_mapping` dict of `KnowledgeService._map_relation_type`
(`services/knowledge_service.py` lines 510-545), in source order. -/
def relationTypeMapping : List (Str × Str) :=
  [(cs "part_of", cs "part_of"), (cs "used_in", cs "used_in"),
   (cs "related_to", cs "related_to"), (cs "causes", cs "causes"),
   (cs "is_solution_for", cs "is_solution_for"),
   (cs "requires", cs "requires"), (cs "results_in", cs "results_in"),
   (cs "checked_by", cs "checked_by"),
   (cs "maintained_by", cs "maintained_by"), (cs "follows", cs "follows"),
   (cs "depends_on", cs "depends_on"),
   (cs "compiled_by", cs "compiled_by"), (cs "compiled", cs "compiled_by"),
   (cs "created_by", cs "created_by"), (cs "created", cs "created_by"),
   (cs "operated_by", cs "operated_by"), (cs "operated", cs "operated_by"),
   (cs "located_in", cs "located_in"), (cs "located", cs "located_in"),
   (cs "contains", cs "contains"), (cs "belongs_to", cs "belongs_to"),
   (cs "belongs", cs "belongs_to"), (cs "connects_to", cs "connects_to"),
   (cs "connects", cs "connects_to"), (cs "replaces", cs "replaces"),
   (cs "improves", cs "improves"), (cs "prevents", cs "prevents"),
   (cs "other", cs "other"), (cs "unknown", cs "other")]

/-- `KnowledgeService._map_relation_type`: lower+strip lookup, then the
upper-cased verb fallback appending `_by`, else `other`. -/
def mapRelationType (relationType : Str) : Str :=
  let normalizedType := pyStrip (pyLower relationType)
  match assocLookup relationTypeMapping normalizedType with
  | some v => v
  | none =>
    if [cs "COMPILED", cs "CREATED", cs "OPERATED", cs "LOCATED",
        cs "BELONGS", cs "CONNECTS"].contains (pyUpper relationType) then
      if [cs "COMPILED", cs "CREATED",
          cs "OPERATED"].contains (pyUpper relationType) then
        normalizedType ++ cs "_by"
      else normalizedType
    else cs "other"

/-- The sixteen entity-type tags of the spec's closed enumeration. -/
def specEntityTags : List Str :=
  [cs "equipment", cs "component", cs "procedure", cs "standard",
   cs "material", cs "condition", cs "error", cs "cause", cs "solution",
   cs "maintenance", cs "inspection", cs "person", cs "tool",
   cs "location", cs "time", cs "other"]

/-- C1: the taxonomy normalizer does return tags of the spec's closed
enumerations (`person` for a person-typed input, `other` for an unknown
relation), but the `EntityType`/`RelationType` enums do not accept these
tags: `EntityType("person")` and `RelationType("other")` raise
`ValueError`, contradicting the extraction prompt's own list of
predefined types.  This theorem evaluates the code at the failing
inputs. -/
theorem C1_mapper_output_rejected_by_enum :
    mapEntityType (cs "person") = cs "person" ∧
    mapEntityType (cs "person") ∈ specEntityTags ∧
    entityTypeOfString (mapEntityType (cs "person")) = none ∧
    mapRelationType (cs "relates somehow") = cs "other" ∧
    relationTypeOfString (mapRelationType (cs "relates somehow")) = none := by
  decide

/-- JSON values, the shape of Python `json.loads` results.  Numbers are
modelled as integers (no inputs in this development use floats). -/
inductive JVal where
  | null
  | jbool (b : Bool)
  | num (n : Int)
  | str (s : Str)
  | arr (elems : List JVal)
  | obj (fields : List (Str × JVal))

/-- JSON insignificant whitespace (space, tab, newline, carriage return). -/
def jsonWs (c : Char) : Bool :=
  c = ' ' || c = '\t' || c = '\n' || c = '\r'

/-- Skip JSON whitespace. -/
def skipJWs (s : Str) : Str := s.dropWhile jsonWs

/-- Parse the body of a JSON string after its opening quote; returns the
content and the rest after the closing quote.  The standard single-char
escapes are supported (`\u` escapes do not occur in any input of this
development). -/
def parseJString : Str → Option (Str × Str)
  | [] => none
  | c :: rest =>
    if c = '"' then some ([], rest)
    else if c = '\\' then
      match rest with
      | [] => none
      | e :: rest2 =>
        let esc : Option Char :=
          if e = '"' then some '"'
          else if e = '\\' then some '\\'
          else if e = '/' then some '/'
          else if e = 'b' then some (Char.ofNat 8)
          else if e = 'f' then some (Char.ofNat 12)
          else if e = 'n' then some '\n'
          else if e = 'r' then some '\r'
          else if e = 't' then some '\t'
          else none
        match esc with
        | some ch => (parseJString rest2).map (fun p => (ch :: p.1, p.2))
        | none => none
    else (parseJString rest).map (fun p => (c :: p.1, p.2))

/-- Digit run to a natural number. -/
def digitsToNat (l : Str) : Nat :=
  l.foldl (fun a c => a * 10 + (c.toNat - 48)) 0

/-- Parse a JSON integer (optional minus sign, one or more digits). -/
def parseJNum (s : Str) : Option (Int × Str) :=
  let (neg, s1) :=
    match s with
    | c :: rest => if c = '-' then (true, rest) else (false, s)
    | [] => (false, s)
  let ds := s1.takeWhile Char.isDigit
  if ds.isEmpty then none
  else
    let n : Int := Int.ofNat (digitsToNat ds)
    some (if neg then -n else n, s1.drop ds.length)

mutual

/-- Fuel-based JSON value parser modelling `json.loads`. -/
def parseJVal : Nat → Str → Option (JVal × Str)
  | 0, _ => none
  | Nat.succ fuel, s =>
    match skipJWs s with
    | [] => none
    | c :: rest =>
      if c = '"' then
        (parseJString rest).map (fun p => (JVal.str p.1, p.2))
      else if c = lbrace then
        let s1 := skipJWs rest
        match s1 with
        | d :: rest1 =>
          if d = rbrace then some (JVal.obj [], rest1)
          else parseJMembers fuel s1
        | [] => none
      else if c = '[' then
        let s1 := skipJWs rest
        match s1 with
        | d :: rest1 =>
          if d = ']' then some (JVal.arr [], rest1)
          else parseJElems fuel s1
        | [] => none
      else if c = 't' then
        if (cs "rue").isPrefixOf rest then some (JVal.jbool true, rest.drop 3)
        else none
      else if c = 'f' then
        if (cs "alse").isPrefixOf rest then some (JVal.jbool false, rest.drop 4)
        else none
      else if c = 'n' then
        if (cs "ull").isPrefixOf rest then some (JVal.null, rest.drop 3)
        else none
      else if c = '-' || c.isDigit then
        (parseJNum (c :: rest)).map (fun p => (JVal.num p.1, p.2))
      else none

/-- Parse the members of a JSON object (first member not yet consumed);
returns the object and the rest after the closing brace. -/
def parseJMembers : Nat → Str → Option (JVal × Str)
  | 0, _ => none
  | Nat.succ fuel, s =>
    match skipJWs s with
    | c :: rest =>
      if c = '"' then
        match parseJString rest with
        | some (key, r1) =>
          match skipJWs r1 with
          | d :: r2 =>
            if d = ':' then
              match parseJVal fuel r2 with
              | some (v, r3) =>
                match skipJWs r3 with
                | e :: r4 =>
                  if e = ',' then
                    match parseJMembers fuel r4 with
                    | some (JVal.obj fields, r5) =>
                      some (JVal.obj ((key, v) :: fields), r5)
                    | _ => none
                  else if e = rbrace then some (JVal.obj [(key, v)], r4)
                  else none
                | [] => none
              | none => none
            else none
          | [] => none
        | none => none
      else none
    | [] => none

/-- Parse the elements of a JSON array (first element not yet consumed);
returns the array and the rest after the closing bracket. -/
def parseJElems : Nat → Str → Option (JVal × Str)
  | 0, _ => none
  | Nat.succ fuel, s =>
    match parseJVal fuel s with
    | some (v, r1) =>
      match skipJWs r1 with
      | c :: r2 =>
        if c = ',' then
          match parseJElems fuel r2 with
          | some (JVal.arr elems, r3) => some (JVal.arr (v :: elems), r3)
          | _ => none
        else if c = ']' then some (JVal.arr [v], r2)
        else none
      | [] => none
    | none => none

end

/-- `json.loads`: parse a complete JSON document; trailing whitespace
allowed, anything else is an error. -/
def jsonParse (s : Str) : Option JVal :=
  match parseJVal (s.length + 1) s with
  | some (v, rest) => if skipJWs rest = [] then some v else none
  | none => none

/-- Interior scan of the regex `\{(?:[^{}]|{[^{}]*})*\}` after its opening
brace.  `inFlat` records whether the scan sits inside a depth-one
sub-object (the `{[^{}]*}` alternative); `acc` is the reversed text
consumed so far.  Returns the matched text and the rest of the input; a
second-level brace or exhaustion means no match at this start. -/
def scanBrace : Str → Bool → Str → Option (Str × Str)
  | [], _, _ => none
  | c :: rest, inFlat, acc =>
    if c = rbrace then
      if inFlat then scanBrace rest false (c :: acc)
      else some ((c :: acc).reverse, rest)
    else if c = lbrace then
      if inFlat then none
      else scanBrace rest true (c :: acc)
    else scanBrace rest inFlat (c :: acc)

/-- `re.findall(r'\{(?:[^{}]|{[^{}]*})*\}', text, re.DOTALL)`: scan left
to right; at an opening brace attempt the match, emit it and resume after
it, otherwise advance one character.  `fuel` bounds the recursion and is
instantiated with the input length. -/
def findBraceGo : Nat → Str → List Str
  | 0, _ => []
  | Nat.succ fuel, s =>
    match s with
    | [] => []
    | c :: rest =>
      if c = lbrace then
        match scanBrace rest false [c] with
        | some (m, r) => m :: findBraceGo fuel r
        | none => findBraceGo fuel rest
      else findBraceGo fuel rest

/-- All matches of the brace pattern in the text. -/
def findBraceMatches (s : Str) : List Str := findBraceGo s.length s

/-- The lazy part `(\{.*?\})\s*` ++ closing fence of the code-block
pattern: starting inside the group, find the first closing brace that is
followed by whitespace and a closing fence.  Returns the group text and
the rest after the closing fence. -/
def lazyCloseFence : Str → Str → Option (Str × Str)
  | [], _ => none
  | c :: rest, acc =>
    if c = rbrace then
      let after := rest.dropWhile pySpace
      if (cs "```").isPrefixOf after then
        some ((c :: acc).reverse, after.drop 3)
      else lazyCloseFence rest (c :: acc)
    else lazyCloseFence rest (c :: acc)

/-- Attempt the code-block pattern `` ```(?:json)?\s*(\{.*?\})\s*``` `` at
the head of `s`; returns the captured group and the rest after the match. -/
def tryCodeBlockAt (s : Str) : Option (Str × Str) :=
  if (cs "```").isPrefixOf s then
    let s1 := s.drop 3
    let s2 := if (cs "json").isPrefixOf s1 then s1.drop 4 else s1
    let s3 := s2.dropWhile pySpace
    match s3 with
    | c :: rest => if c = lbrace then lazyCloseFence (c :: rest) [] else none
    | [] => none
  else none

/-- `re.findall` for the code-block pattern: emit each captured group,
resuming after the full match, advancing one character on failure. -/
def findCodeBlockGo : Nat → Str → List Str
  | 0, _ => []
  | Nat.succ fuel, s =>
    match s with
    | [] => []
    | _ :: rest =>
      match tryCodeBlockAt s with
      | some (g, r) => g :: findCodeBlockGo fuel r
      | none => findCodeBlockGo fuel rest

/-- All captured groups of the code-block pattern in the text. -/
def findCodeBlockMatches (s : Str) : List Str := findCodeBlockGo s.length s

/-- The empty triple returned by `_parse_llm_response` on total failure. -/
def emptyTriple : JVal :=
  JVal.obj [(cs "entities", JVal.arr []), (cs "relations", JVal.arr []),
            (cs "cypher_statements", JVal.arr [])]

/-- First candidate string that parses as JSON. -/
def firstJsonParse : List Str → Option JVal
  | [] => none
  | m :: rest =>
    match jsonParse m with
    | some d => some d
    | none => firstJsonParse rest

/-- `KnowledgeService._parse_llm_response`: direct parse; else balanced
depth-two brace substrings; else fenced code blocks; else the empty
triple.  Total: every Python exception path is caught in the source. -/
def parseLLMResponse (responseText : Str) : JVal :=
  match jsonParse responseText with
  | some d => d
  | none =>
    let matches0 := findBraceMatches responseText
    let matches1 :=
      if matches0.isEmpty then findCodeBlockMatches responseText else matches0
    if matches1.isEmpty then emptyTriple
    else
      match firstJsonParse matches1 with
      | some d => d
      | none => emptyTriple

/-- Python dict truthiness-free get with default, on association lists
(keys are unique as in a Python dict). -/
def dictGet (d : List (Str × JVal)) (k : Str) (dflt : JVal) : JVal :=
  match d.find? (fun p => p.1 == k) with
  | some p => p.2
  | none => dflt

/-- Optional dict lookup (`k in d` / `d[k]`). -/
def dictGetOpt (d : List (Str × JVal)) (k : Str) : Option JVal :=
  (d.find? (fun p => p.1 == k)).map (fun p => p.2)

/-- `d[k] = v` on an association list modelling a Python dict: overwrite
in place if the key exists, else append. -/
def dictSet (d : List (Str × JVal)) (k : Str) (v : JVal) : List (Str × JVal) :=
  if d.any (fun p => p.1 == k) then
    d.map (fun p => if p.1 == k then (k, v) else p)
  else d ++ [(k, v)]

/-- Python `{**a, **b}`: keys of `a` in order with `b`'s values winning,
then `b`'s new keys in their order. -/
def dictMerge (a b : List (Str × JVal)) : List (Str × JVal) :=
  b.foldl (fun d p => dictSet d p.1 p.2) a

/-- The `Entity` pydantic model of `models/knowledge.py` (lines 44-130).
Timestamps are logical-clock values. -/
structure Entity where
  id : Str
  name : Str
  type : EntityType
  description : Option Str := none
  source_document : Option Str := none
  source_table : Option Str := none
  created_at : Nat := 0
  updated_at : Nat := 0
  properties : List (Str × JVal) := []
  normalized_name : Option Str := none

/-- The `Relation` pydantic model of `models/knowledge.py` (lines 133-203). -/
structure Relation where
  id : Str
  type : RelationType
  source : Str
  target : Str
  description : Option Str := none
  source_document : Option Str := none
  source_table : Option Str := none
  created_at : Nat := 0
  updated_at : Nat := 0
  properties : List (Str × JVal) := []

/-- The `KnowledgeGraph` pydantic model viewed as plain data (used by the
code paths that never mutate shared objects: extraction, query,
serialization). -/
structure KnowledgeGraph where
  id : Str
  name : Str
  description : Option Str := none
  created_at : Nat := 0
  updated_at : Nat := 0
  entities : List Entity := []
  relations : List Relation := []
  metadata : List (Str × JVal) := []

/-- `Entity.normalize_name` viewed as a pure computation: the cached
value if present and non-empty, else the normalization of `name`.
(The caching write itself is modelled in the object-store embedding of
`merge_with` below.) -/
def entityEffectiveNorm (e : Entity) : Str :=
  match e.normalized_name with
  | some (c :: rest) => c :: rest
  | _ => pyNormalizeName e.name

/-- Scan for an occurrence of `needle` at each suffix of `hay`. -/
def containsGo : Nat → Str → Str → Bool
  | 0, _, _ => false
  | Nat.succ fuel, needle, hay =>
    if needle.isPrefixOf hay then true
    else
      match hay with
      | [] => false
      | _ :: rest => containsGo fuel needle rest

/-- Python substring test `needle in hay`. -/
def pyInStr (needle hay : Str) : Bool := containsGo (hay.length + 1) needle hay

/-- Python `\w` (ASCII word character). -/
def wordChar (c : Char) : Bool := c.isAlphanum || c = '_'

/-- Attempt the regex `match\s*\((\w*):(\w+)` at the head of `s`,
returning capture group 2 (the entity type). -/
def tryEntityTypePatternAt (s : Str) : Option Str :=
  if (cs "match").isPrefixOf s then
    let s1 := (s.drop 5).dropWhile pySpace
    match s1 with
    | c :: rest =>
      if c = '(' then
        let grp1 := rest.takeWhile wordChar
        match rest.drop grp1.length with
        | d :: r2 =>
          if d = ':' then
            let grp2 := r2.takeWhile wordChar
            if grp2.isEmpty then none else some grp2
          else none
        | [] => none
      else none
    | [] => none
  else none

/-- Attempt the regex `-\[:([\w]+)\]->` at the head of `s`, returning the
captured relation type. -/
def tryRelTypePatternAt (s : Str) : Option Str :=
  match s with
  | a :: b :: c :: rest =>
    if a = '-' && b = '[' && c = ':' then
      let grp := rest.takeWhile wordChar
      if grp.isEmpty then none
      else if (cs "]->").isPrefixOf (rest.drop grp.length) then some grp
      else none
    else none
  | _ => none

/-- `re.search`: try a pattern at each position left to right. -/
def searchGo (att : Str → Option Str) : Nat → Str → Option Str
  | 0, _ => none
  | Nat.succ fuel, s =>
    match att s with
    | some g => some g
    | none =>
      match s with
      | [] => none
      | _ :: rest => searchGo att fuel rest

/-- `re.search(r"match\s*\((\w*):(\w+)", ql)`, group 2. -/
def searchEntityTypePattern (s : Str) : Option Str :=
  searchGo tryEntityTypePatternAt (s.length + 1) s

/-- `re.search(r"-\[:([\w]+)\]->", ql)`, group 1. -/
def searchRelTypePattern (s : Str) : Option Str :=
  searchGo tryRelTypePatternAt (s.length + 1) s

/-- A query result row: `to_dict()` of an entity or of a relation,
modelled as the underlying record. -/
inductive QRow where
  | entityRow (e : Entity)
  | relationRow (r : Relation)

/-- `QueryService._execute_query_on_graph` (`services/query_service.py`
lines 381-435): lowercase the query; if it contains `match`, run the
entity-type branch; otherwise (`elif`) the relation branch — which also
requires `match`, so it is unreachable; otherwise the path branch returns
all relations; finally truncate to `max_results`. -/
def executeQueryOnGraph (kg : KnowledgeGraph) (cypherQuery : Str)
    (maxResults : Nat) : List QRow :=
  let ql := pyLower cypherQuery
  let results : List QRow :=
    if pyInStr (cs "match") ql then
      match searchEntityTypePattern ql with
      | some entityType =>
        (kg.entities.filter (fun e => e.type.value == entityType)).map QRow.entityRow
      | none => []
    else if pyInStr (cs "match") ql && pyInStr (cs "-") ql
        && pyInStr (cs ">") ql then
      match searchRelTypePattern ql with
      | some relationType =>
        (kg.relations.filter (fun r => r.type.value == relationType)).map QRow.relationRow
      | none => []
    else if pyInStr (cs "shortestpath") ql || pyInStr (cs "path") ql then
      kg.relations.map QRow.relationRow
    else []
  results.take maxResults

/-- Decimal rendering of a natural number (Python `str(int)`). -/
def natToStr (n : Nat) : Str := Nat.toDigits 10 n

/-- `Entity.from_dict` followed by pydantic construction, on a raw record
coming from the parsed LLM reply: `id` and `name` are required strings,
`type` must be a tag of the `EntityType` enum (otherwise `ValueError`),
the optional fields default as in the model.  `Except` carries the
exceptions pydantic/`EntityType` raise. -/
def entityFromDict (d : List (Str × JVal)) (now : Nat) : Except Str Entity := do
  let idv ← match dictGetOpt d (cs "id") with
    | some (JVal.str s) => pure s
    | _ => throw (cs "ValidationError: id")
  let namev ← match dictGetOpt d (cs "name") with
    | some (JVal.str s) => pure s
    | _ => throw (cs "ValidationError: name")
  let tyv ← match dictGetOpt d (cs "type") with
    | some (JVal.str s) =>
      match entityTypeOfString s with
      | some t => pure t
      | none => throw (cs "ValueError: EntityType")
    | _ => throw (cs "ValidationError: type")
  let descv ← match dictGetOpt d (cs "description") with
    | some (JVal.str s) => pure (some s)
    | some JVal.null | none => pure none
    | _ => throw (cs "ValidationError: description")
  let propsv ← match dictGetOpt d (cs "properties") with
    | some (JVal.obj fields) => pure fields
    | none => pure []
    | _ => throw (cs "ValidationError: properties")
  pure { id := idv, name := namev, type := tyv, description := descv,
         created_at := now, updated_at := now, properties := propsv }

/-- `Relation.from_dict` followed by pydantic construction, analogous to
`entityFromDict`; the `type` must be a tag of the `RelationType` enum. -/
def relationFromDict (d : List (Str × JVal)) (now : Nat) : Except Str Relation := do
  let idv ← match dictGetOpt d (cs "id") with
    | some (JVal.str s) => pure s
    | _ => throw (cs "ValidationError: id")
  let tyv ← match dictGetOpt d (cs "type") with
    | some (JVal.str s) =>
      match relationTypeOfString s with
      | some t => pure t
      | none => throw (cs "ValueError: RelationType")
    | _ => throw (cs "ValidationError: type")
  let sourcev ← match dictGetOpt d (cs "source") with
    | some (JVal.str s) => pure s
    | _ => throw (cs "ValidationError: source")
  let targetv ← match dictGetOpt d (cs "target") with
    | some (JVal.str s) => pure s
    | _ => throw (cs "ValidationError: target")
  let descv ← match dictGetOpt d (cs "description") with
    | some (JVal.str s) => pure (some s)
    | some JVal.null | none => pure none
    | _ => throw (cs "ValidationError: description")
  let propsv ← match dictGetOpt d (cs "properties") with
    | some (JVal.obj fields) => pure fields
    | none => pure []
    | _ => throw (cs "ValidationError: properties")
  pure { id := idv, type := tyv, source := sourcev, target := targetv,
         description := descv, created_at := now, updated_at := now,
         properties := propsv }

/-- Rewrite of one raw relation record in `_extract_knowledge_with_llm`
(lines 322-341): the `from`/`to` format is rewritten to
`source`/`target` with the type mapped and the id defaulted to the
`from-to-type` composite (whose f-string reads `rel['type']` eagerly and
so raises on a record without a type); the `source`/`target` format only
has its type mapped. -/
def rewriteRelationRecord (rel : List (Str × JVal)) : Except Str (List (Str × JVal)) := do
  match dictGetOpt rel (cs "from"), dictGetOpt rel (cs "to") with
  | some fromv, some tov =>
    let relationType ← match dictGetOpt rel (cs "type") with
      | some (JVal.str s) => pure (mapRelationType s)
      | some _ => throw (cs "AttributeError: lower")
      | none => pure (mapRelationType (cs "other"))
    let froms ← match fromv with
      | JVal.str s => pure s
      | _ => throw (cs "TypeError: from")
    let tos ← match tov with
      | JVal.str s => pure s
      | _ => throw (cs "TypeError: to")
    let typs ← match dictGetOpt rel (cs "type") with
      | some (JVal.str s) => pure s
      | _ => throw (cs "KeyError: type")
    let idv := dictGet rel (cs "id")
      (JVal.str (froms ++ cs "-" ++ tos ++ cs "-" ++ typs))
    pure [(cs "id", idv), (cs "source", JVal.str froms),
          (cs "target", JVal.str tos), (cs "type", JVal.str relationType),
          (cs "description", dictGet rel (cs "description") (JVal.str [])),
          (cs "properties", dictGet rel (cs "properties") (JVal.obj []))]
  | _, _ =>
    match dictGetOpt rel (cs "type") with
    | some (JVal.str s) =>
      pure (dictSet rel (cs "type") (JVal.str (mapRelationType s)))
    | some _ => throw (cs "AttributeError: lower")
    | none => pure rel

/-- `KnowledgeService._extract_knowledge_with_llm` (lines 267-364).  The
transport call is modelled by its outcome: `Except.error` is a raised
transport exception, `Except.ok` the reply text (the UTF-8
re-encode/decode of a string is the identity here).  A transport failure
is caught and converted into the degraded error graph; after a
successful call the reply is parsed, relation records are rewritten,
types are mapped, and the graph is built — uncaught pydantic/`ValueError`
exceptions from record construction propagate as `Except.error`. -/
def extractKnowledgeWithLLM (llmResponse : Except Str Str)
    (sourceDocId : Str) (now : Nat) : Except Str KnowledgeGraph :=
  match llmResponse with
  | Except.error e =>
    Except.ok
      { id := cs "error_" ++ sourceDocId,
        name := cs "Error Knowledge Graph for " ++ sourceDocId,
        created_at := now, updated_at := now, entities := [], relations := [],
        metadata := [(cs "error", JVal.str (cs "大模型调用失败: " ++ e))] }
  | Except.ok resultText => do
    let kgData ← match parseLLMResponse resultText with
      | JVal.obj fields => pure fields
      | _ => throw (cs "AttributeError: get")
    let relsRaw ← match dictGet kgData (cs "relations") (JVal.arr []) with
      | JVal.arr l => l.mapM (fun rel =>
          match rel with
          | JVal.obj fields => (pure fields : Except Str _)
          | _ => throw (cs "TypeError: relation record"))
      | _ => throw (cs "TypeError: relations")
    let relationsData ← relsRaw.mapM rewriteRelationRecord
    let entsRaw ← match dictGet kgData (cs "entities") (JVal.arr []) with
      | JVal.arr l => l.mapM (fun ent =>
          match ent with
          | JVal.obj fields => (pure fields : Except Str _)
          | _ => throw (cs "TypeError: entity record"))
      | _ => throw (cs "TypeError: entities")
    let entitiesData ← entsRaw.mapM (fun ent => do
      let entityType ← match dictGetOpt ent (cs "type") with
        | some (JVal.str s) => pure (mapEntityType s)
        | some _ => throw (cs "AttributeError: lower")
        | none => pure (mapEntityType (cs "other"))
      pure (dictSet ent (cs "type") (JVal.str entityType)))
    let entities ← entitiesData.mapM (fun e => entityFromDict e now)
    let relations ← relationsData.mapM (fun r => relationFromDict r now)
    pure
      { id := cs "kg_" ++ sourceDocId ++ cs "_" ++ natToStr now,
        name := cs "知识图谱_" ++ sourceDocId,
        description := some (cs "从文档 " ++ sourceDocId ++ cs " 中抽取的知识"),
        created_at := now, updated_at := now,
        entities := entities, relations := relations,
        metadata := [(cs "source_document", JVal.str sourceDocId),
                     (cs "cypher_statements",
                      dictGet kgData (cs "cypher_statements") (JVal.arr []))] }

/-- Serialize one optional string as JSON (`null` or a string). -/
def jsonOfOptStr (o : Option Str) : JVal :=
  match o with
  | some s => JVal.str s
  | none => JVal.null

/-- The serialized record of an entity (`Entity.json()` shape):
timestamps rendered as strings. -/
def jsonOfEntity (e : Entity) : JVal :=
  JVal.obj
    [(cs "id", JVal.str e.id), (cs "name", JVal.str e.name),
     (cs "type", JVal.str e.type.value),
     (cs "description", jsonOfOptStr e.description),
     (cs "source_document", jsonOfOptStr e.source_document),
     (cs "source_table", jsonOfOptStr e.source_table),
     (cs "created_at", JVal.str (natToStr e.created_at)),
     (cs "updated_at", JVal.str (natToStr e.updated_at)),
     (cs "properties", JVal.obj e.properties),
     (cs "normalized_name", jsonOfOptStr e.normalized_name)]

/-- The serialized record of a relation (`Relation.json()` shape). -/
def jsonOfRelation (r : Relation) : JVal :=
  JVal.obj
    [(cs "id", JVal.str r.id), (cs "type", JVal.str r.type.value),
     (cs "source", JVal.str r.source), (cs "target", JVal.str r.target),
     (cs "description", jsonOfOptStr r.description),
     (cs "source_document", jsonOfOptStr r.source_document),
     (cs "source_table", jsonOfOptStr r.source_table),
     (cs "created_at", JVal.str (natToStr r.created_at)),
     (cs "updated_at", JVal.str (natToStr r.updated_at)),
     (cs "properties", JVal.obj r.properties)]

/-- The serialized record of a knowledge graph (`KnowledgeGraph.json()`
shape, `kg.json()` in `save_knowledge_graph`). -/
def jsonOfKnowledgeGraph (kg : KnowledgeGraph) : JVal :=
  JVal.obj
    [(cs "id", JVal.str kg.id), (cs "name", JVal.str kg.name),
     (cs "description", jsonOfOptStr kg.description),
     (cs "created_at", JVal.str (natToStr kg.created_at)),
     (cs "updated_at", JVal.str (natToStr kg.updated_at)),
     (cs "entities", JVal.arr (kg.entities.map jsonOfEntity)),
     (cs "relations", JVal.arr (kg.relations.map jsonOfRelation)),
     (cs "metadata", JVal.obj kg.metadata)]

/-- Escape one character for a JSON string literal. -/
def jsonEscapeChar (c : Char) : Str :=
  if c = '"' then ['\\', '"']
  else if c = '\\' then ['\\', '\\']
  else if c = '\n' then ['\\', 'n']
  else if c = '\r' then ['\\', 'r']
  else if c = '\t' then ['\\', 't']
  else [c]

/-- Render a JSON string literal. -/
def jsonRenderStr (s : Str) : Str :=
  '"' :: (s.flatMap jsonEscapeChar) ++ ['"']

mutual

/-- Render a JSON value as text. -/
def jsonRender : JVal → Str
  | JVal.null => cs "null"
  | JVal.jbool b => if b then cs "true" else cs "false"
  | JVal.num n =>
    if n < 0 then '-' :: natToStr n.natAbs else natToStr n.natAbs
  | JVal.str s => jsonRenderStr s
  | JVal.arr elems => '[' :: jsonRenderElems elems ++ [']']
  | JVal.obj fields => lbrace :: jsonRenderFields fields ++ [rbrace]

/-- Render array elements, comma separated. -/
def jsonRenderElems : List JVal → Str
  | [] => []
  | [v] => jsonRender v
  | v :: rest => jsonRender v ++ cs ", " ++ jsonRenderElems rest

/-- Render object members, comma separated. -/
def jsonRenderFields : List (Str × JVal) → Str
  | [] => []
  | [(k, v)] => jsonRenderStr k ++ cs ": " ++ jsonRender v
  | (k, v) :: rest =>
    jsonRenderStr k ++ cs ": " ++ jsonRender v ++ cs ", " ++ jsonRenderFields rest

end

/-- `KnowledgeService.save_knowledge_graph`: the file content written for
a graph is `kg.json()`. -/
def savedGraphFileContent (kg : KnowledgeGraph) : Str :=
  jsonRender (jsonOfKnowledgeGraph kg)

/-- `KnowledgeGraph.from_dict` applied to a raw Python string (as done by
`load_knowledge_graph`, which passes the file text instead of a parsed
dict).  Python's `in` on a string is a substring test, and indexing a
string with a string key raises `TypeError`; `cls(**data)` on a string
also raises `TypeError`.  Every path raises. -/
def fromDictOnString (data : Str) : Except Str KnowledgeGraph :=
  if pyInStr (cs "created_at") data then
    Except.error (cs "TypeError: string indices must be integers")
  else if pyInStr (cs "updated_at") data then
    Except.error (cs "TypeError: string indices must be integers")
  else if pyInStr (cs "entities") data then
    Except.error (cs "TypeError: string indices must be integers")
  else if pyInStr (cs "relations") data then
    Except.error (cs "TypeError: string indices must be integers")
  else
    Except.error (cs "TypeError: argument of type str is not a mapping")

/-- `KnowledgeService.load_knowledge_graph` applied to the content of an
existing graph file: `KnowledgeGraph.from_dict(f.read())` inside a
`try/except` that returns `None` on any exception. -/
def loadKnowledgeGraphFromContent (content : Str) : Option KnowledgeGraph :=
  match fromDictOnString content with
  | Except.ok kg => some kg
  | Except.error _ => none

/-- Placeholder entity for out-of-range references (never reached by the
states considered in the theorems below). -/
def defaultEntity : Entity :=
  { id := [], name := [], type := EntityType.other }

/-- Placeholder relation for out-of-range references. -/
def defaultRelation : Relation :=
  { id := [], type := RelationType.related_to, source := [], target := [] }

/-- The Python object store for `merge_with`: pydantic v2 passes model
instances through by reference, so `KnowledgeGraph(entities=
self.entities.copy(), ...)` shares the entity objects themselves and
`found.update(...)` mutates them in place.  Entities and relations live
in indexed stores; graphs hold lists of indices.  `clock` models
`datetime.now()` as a fresh logical instant per call. -/
structure PyState where
  ents : List Entity
  rels : List Relation
  clock : Nat

/-- Read an entity object. -/
def getEnt (st : PyState) (r : Nat) : Entity := st.ents.getD r defaultEntity

/-- Overwrite an entity object in place. -/
def setEnt (st : PyState) (r : Nat) (e : Entity) : PyState :=
  { st with ents := st.ents.set r e }

/-- Read a relation object. -/
def getRel (st : PyState) (r : Nat) : Relation := st.rels.getD r defaultRelation

/-- `datetime.now()`: a fresh logical instant. -/
def tick (st : PyState) : Nat × PyState :=
  (st.clock, { st with clock := st.clock + 1 })

/-- A `KnowledgeGraph` object as seen by `merge_with`: field data plus
references into the object store. -/
structure KnowledgeGraphObj where
  id : Str
  name : Str
  description : Option Str := none
  created_at : Nat := 0
  updated_at : Nat := 0
  entityRefs : List Nat := []
  relRefs : List Nat := []
  metadata : List (Str × JVal) := []

/-- `Entity.normalize_name` (lines 101-109): return the cached
`normalized_name` if it is truthy, else compute the normalization of
`name`, cache it on the object, and return it. -/
def normEntAt (st : PyState) (r : Nat) : Str × PyState :=
  let e := getEnt st r
  match e.normalized_name with
  | some (c :: rest) => (c :: rest, st)
  | _ =>
    let n := pyNormalizeName e.name
    (n, setEnt st r { e with normalized_name := some n })

/-- String-to-string dict assignment (`entity_map[k] = v`). -/
def strDictSet (d : List (Str × Str)) (k v : Str) : List (Str × Str) :=
  if d.any (fun p => p.1 == k) then
    d.map (fun p => if p.1 == k then (k, v) else p)
  else d ++ [(k, v)]

/-- `d.get(k, dflt)` on a string-to-string dict. -/
def strDictGetD (d : List (Str × Str)) (k dflt : Str) : Str :=
  match d.find? (fun p => p.1 == k) with
  | some p => p.2
  | none => dflt

/-- The inner search of `merge_with` (lines 333-337): scan the
accumulated entity list for the first entity with the same
`normalize_name()` and `type` as the incoming entity; both
`normalize_name()` calls cache on their objects. -/
def findMatchLoop (st : PyState) (refs : List Nat) (entityRef : Nat) :
    PyState × Option Nat :=
  match refs with
  | [] => (st, none)
  | r :: rest =>
    let (en, st1) := normEntAt st r
    let (nn, st2) := normEntAt st1 entityRef
    if en == nn && (getEnt st2 r).type == (getEnt st2 entityRef).type then
      (st2, some r)
    else findMatchLoop st2 rest entityRef

/-- One iteration of the entity loop of `merge_with` (lines 331-351):
search for a match; if found, update the matched object in place
(`description`/`source_document`/`source_table` via Python `or` with the
incoming value first, properties merged with the incoming side winning)
and map the incoming id to the match's id; else append the incoming
object reference itself to the merged graph and map the id to itself. -/
def mergeOneEntity (acc : PyState × KnowledgeGraphObj × List (Str × Str))
    (entityRef : Nat) : PyState × KnowledgeGraphObj × List (Str × Str) :=
  let (st, merged, entityMap) := acc
  let (st1, found) := findMatchLoop st merged.entityRefs entityRef
  match found with
  | some fref =>
    let entity := getEnt st1 entityRef
    let f := getEnt st1 fref
    let (now, st2) := tick st1
    let fNew : Entity :=
      { f with
        description := pyOrStr entity.description f.description,
        properties := dictMerge f.properties entity.properties,
        source_document := pyOrStr entity.source_document f.source_document,
        source_table := pyOrStr entity.source_table f.source_table,
        updated_at := now }
    (setEnt st2 fref fNew, merged, strDictSet entityMap entity.id f.id)
  | none =>
    let entity := getEnt st1 entityRef
    let (now, st2) := tick st1
    (st2,
     { merged with entityRefs := merged.entityRefs ++ [entityRef],
                   updated_at := now },
     strDictSet entityMap entity.id entity.id)

/-- One iteration of the relation loop of `merge_with` (lines 355-381):
rewrite the endpoints through the id map (ids not in the map pass
through unchanged); skip if the merged graph already holds a relation
with the same `(type, source, target)`; otherwise allocate a new
relation object with the rewritten endpoints and append it. -/
def mergeOneRelation (acc : PyState × KnowledgeGraphObj × List (Str × Str))
    (relRef : Nat) : PyState × KnowledgeGraphObj × List (Str × Str) :=
  let (st, merged, entityMap) := acc
  let relation := getRel st relRef
  let newSource := strDictGetD entityMap relation.source relation.source
  let newTarget := strDictGetD entityMap relation.target relation.target
  let dup := merged.relRefs.any (fun r =>
    let rr := getRel st r
    rr.type == relation.type && rr.source == newSource && rr.target == newTarget)
  if dup then acc
  else
    let (now, st1) := tick st
    let newRel : Relation :=
      { id := relation.id, type := relation.type,
        source := newSource, target := newTarget,
        description := relation.description,
        properties := relation.properties,
        source_document := relation.source_document,
        source_table := relation.source_table,
        created_at := now, updated_at := now }
    let newRef := st1.rels.length
    let st2 := { st1 with rels := st1.rels ++ [newRel] }
    let (now2, st3) := tick st2
    (st3,
     { merged with relRefs := merged.relRefs ++ [newRef], updated_at := now2 },
     entityMap)

/-- `KnowledgeGraph.merge_with` (lines 300-383): seed a new graph object
with shallow copies of the entity/relation lists (the same object
references) and the same metadata; if `merge_entities`, run the entity
loop, and — only nested inside that branch — if `merge_relations`, run
the relation loop.  Returns the final store and the merged graph. -/
def mergeWith (st : PyState) (self other : KnowledgeGraphObj)
    (mergeEntities mergeRelations : Bool) : PyState × KnowledgeGraphObj :=
  let (now, st0) := tick st
  let merged0 : KnowledgeGraphObj :=
    { id := self.id, name := self.name, description := self.description,
      created_at := now, updated_at := now,
      entityRefs := self.entityRefs, relRefs := self.relRefs,
      metadata := self.metadata }
  if mergeEntities then
    let (st1, merged1, entityMap) :=
      other.entityRefs.foldl mergeOneEntity (st0, merged0, [])
    if mergeRelations then
      let (st2, merged2, _) :=
        other.relRefs.foldl mergeOneRelation (st1, merged1, entityMap)
      (st2, merged2)
    else (st1, merged1)
  else (st0, merged0)

/-- A graph holding exactly one `causes` relation, for the query claim. -/
def kgC2 : KnowledgeGraph :=
  { id := cs "g", name := cs "g",
    entities := [{ id := cs "e1", name := cs "belt", type := EntityType.equipment },
                 { id := cs "e2", name := cs "wear", type := EntityType.error }],
    relations := [{ id := cs "r1", type := RelationType.causes,
                    source := cs "e1", target := cs "e2" }] }

/-- C2: a relation-type query (`MATCH ()-[r:causes]->() RETURN r`) on a
graph holding a `causes` relation returns no rows: the relation branch of
`_execute_query_on_graph` sits in an `elif` behind `if "match" in query`,
so any query containing `match` takes the entity branch, whose pattern
does not match an arrowed query, leaving the result empty.  The claim
(one row per matching relation) fails. -/
theorem C2_relation_query_returns_nothing :
    executeQueryOnGraph kgC2 (cs "MATCH ()-[r:causes]->() RETURN r") 10 = [] ∧
    kgC2.relations.length = 1 ∧
    (kgC2.relations.filter
      (fun r => r.type.value == cs "causes")).length = 1 := by
  exact ⟨rfl, rfl, rfl⟩

/-- C10: saving a graph writes `kg.json()`, and loading passes the raw
file text to `KnowledgeGraph.from_dict`, where every path raises a
`TypeError` on a string argument (`"created_at" in data` is a substring
test and `data["created_at"]` indexes a string with a string); the
exception is caught and `None` returned, so no saved graph ever loads
back. -/
theorem C10_save_then_load_returns_none (kg : KnowledgeGraph) :
    loadKnowledgeGraphFromContent (savedGraphFileContent kg) = none := by
  have herr : ∃ e, fromDictOnString (savedGraphFileContent kg) = Except.error e := by
    unfold fromDictOnString
    split_ifs <;> exact ⟨_, rfl⟩
  obtain ⟨e, he⟩ := herr
  unfold loadKnowledgeGraphFromContent
  rw [he]

/-- Store for the C3 counterexample: one entity owned by the base graph,
one by the other graph, same `(normalized_name, type)`. -/
def stC3 : PyState :=
  { ents := [{ id := cs "1", name := cs "a", type := EntityType.equipment,
               description := some (cs "old") },
             { id := cs "2", name := cs "a", type := EntityType.equipment,
               description := some (cs "new") }],
    rels := [], clock := 0 }

/-- Base graph of the C3 counterexample (owns entity 0). -/
def baseC3 : KnowledgeGraphObj := { id := cs "b", name := cs "b", entityRefs := [0] }

/-- Other graph of the C3 counterexample (owns entity 1). -/
def otherC3 : KnowledgeGraphObj := { id := cs "o", name := cs "o", entityRefs := [1] }

/-- C3 counterexample: after `base.merge_with(other)`, the entity object
owned by `base` (store index 0) has had its `description` overwritten in
place from `"old"` to `"new"`, and the merged graph's entity list is the
very same object reference list as `base`'s — refuting both the
no-mutation and the no-sharing parts of the claim. -/
theorem C3_counterexample :
    (getEnt (mergeWith stC3 baseC3 otherC3 true true).1 0).description
      = some (cs "new") ∧
    (getEnt stC3 0).description = some (cs "old") ∧
    (mergeWith stC3 baseC3 otherC3 true true).2.entityRefs = baseC3.entityRefs := by
  exact ⟨rfl, rfl, rfl⟩

/-- Store for the C5 counterexample: the resident entity has a non-empty
description and source document; the incoming entity carries different
non-empty values. -/
def stC5 : PyState :=
  { ents := [{ id := cs "f", name := cs "pump", type := EntityType.equipment,
               description := some (cs "kept description"),
               source_document := some (cs "docF") },
             { id := cs "e", name := cs "Pump", type := EntityType.equipment,
               description := some (cs "incoming description"),
               source_document := some (cs "docE") }],
    rels := [], clock := 0 }

/-- Base graph of the C5 counterexample. -/
def baseC5 : KnowledgeGraphObj := { id := cs "b5", name := cs "b5", entityRefs := [0] }

/-- Other graph of the C5 counterexample. -/
def otherC5 : KnowledgeGraphObj := { id := cs "o5", name := cs "o5", entityRefs := [1] }

/-- C5 counterexample: the matched entity's description was non-empty
(`"kept description"`), yet after the merge it holds the incoming value —
the code computes `entity.description or found.description`, replacing
whenever the incoming value is truthy, not only when the resident one was
empty; likewise `source_document` is overwritten although it was
non-empty. -/
theorem C5_counterexample :
    pyTruthyStr (getEnt stC5 0).description = true ∧
    (getEnt (mergeWith stC5 baseC5 otherC5 true true).1 0).description
      = some (cs "incoming description") ∧
    pyTruthyStr (getEnt stC5 0).source_document = true ∧
    (getEnt (mergeWith stC5 baseC5 otherC5 true true).1 0).source_document
      = some (cs "docE") := by
  exact ⟨rfl, rfl, rfl, rfl⟩

/-- Store for the C6 counterexample: a single relation owned by the
other graph; no entities at all. -/
def stC6 : PyState :=
  { ents := [],
    rels := [{ id := cs "r", type := RelationType.causes,
               source := cs "x", target := cs "y" }],
    clock := 0 }

/-- Base graph of the C6 counterexample (empty). -/
def baseC6 : KnowledgeGraphObj := { id := cs "b6", name := cs "b6" }

/-- Other graph of the C6 counterexample (owns relation 0). -/
def otherC6 : KnowledgeGraphObj := { id := cs "o6", name := cs "o6", relRefs := [0] }

/-- C6 counterexample: with `merge_entities = False` and
`merge_relations = True` the other graph's relation is not merged (the
relation loop is nested inside the entity branch), while with both flags
true the same relation is appended — so relation merging is not
independent of `merge_entities` as claimed. -/
theorem C6_counterexample :
    (mergeWith stC6 baseC6 otherC6 false true).2.relRefs = [] ∧
    (mergeWith stC6 baseC6 otherC6 true true).2.relRefs = [1] ∧
    otherC6.relRefs = [0] := by
  exact ⟨rfl, rfl, rfl⟩

/-- Store for the C9 counterexample: two entities with the same
`(normalized_name, type)` key but different ids, and a relation between
the second entity and itself. -/
def stC9 : PyState :=
  { ents := [{ id := cs "1", name := cs "a", type := EntityType.equipment },
             { id := cs "2", name := cs "a", type := EntityType.equipment }],
    rels := [{ id := cs "r", type := RelationType.causes,
               source := cs "2", target := cs "2" }],
    clock := 0 }

/-- The graph of the C9 counterexample (owns both entities and the
relation). -/
def graphC9 : KnowledgeGraphObj :=
  { id := cs "g9", name := cs "g9", entityRefs := [0, 1], relRefs := [0] }

/-- C9 counterexample: merging this graph with itself rewrites the
relation's endpoints through the id map (`"2" ↦ "1"`, because entity 2
matches entity 1 by key), the rewritten triple `(causes, "1", "1")` is
not present, and the relation is appended — the relation count grows
from one to two, refuting the claim that every incoming relation is
skipped as a duplicate. -/
theorem C9_counterexample :
    (mergeWith stC9 graphC9 graphC9 true true).2.relRefs.length = 2 ∧
    graphC9.relRefs.length = 1 ∧
    (mergeWith stC9 graphC9 graphC9 true true).2.entityRefs.length
      = graphC9.entityRefs.length := by
  exact ⟨rfl, rfl, rfl⟩

/-- Top-level keys of a parsed object (observable used to separate
parse results). -/
def topKeys (v : JVal) : List Str :=
  match v with
  | JVal.obj fields => fields.map Prod.fst
  | _ => []

/-- The C4 payload: a JSON object whose entity record carries a nested
`properties` object (brace depth three). -/
def payloadC4 : Str :=
  cs "\x7b\"entities\": [\x7b\"id\": \"a\", \"properties\": \x7b\"k\": \"v\"\x7d\x7d], \"relations\": []\x7d"

/-- The C4 payload wrapped in prose and a fenced code block. -/
def wrappedC4 : Str :=
  cs "Here is the result:\n```json\n" ++ payloadC4 ++ cs "\n```"

/-- C4 counterexample: the bare payload parses to the full object
(top-level keys `entities`, `relations`), but the wrapped reply parses to
the inner entity record (top-level keys `id`, `properties`): the
brace-extraction regex `\{(?:[^{}]|{[^{}]*})*\}` only matches two levels
of nesting, so on a depth-three payload the first candidate that parses
is the entity record, not the payload — the recovered structures
differ. -/
theorem C4_counterexample :
    topKeys (parseLLMResponse payloadC4) = [cs "entities", cs "relations"] ∧
    topKeys (parseLLMResponse wrappedC4) = [cs "id", cs "properties"] ∧
    parseLLMResponse wrappedC4 ≠ parseLLMResponse payloadC4 := by
  refine ⟨rfl, rfl, fun h => ?_⟩
  have hk : topKeys (parseLLMResponse wrappedC4)
      = topKeys (parseLLMResponse payloadC4) := by rw [h]
  rw [show topKeys (parseLLMResponse wrappedC4) = [cs "id", cs "properties"] from rfl,
      show topKeys (parseLLMResponse payloadC4) = [cs "entities", cs "relations"] from rfl]
    at hk
  exact absurd hk (by decide)

/-- C7 counterexample: for a reply with no recoverable structure, the
extraction returns (without raising) a graph with zero entities and zero
relations whose metadata has no `error` key at all (it carries
`source_document` and empty `cypher_statements`), and whose id has the
normal `kg_` prefix — while a transport failure produces the degraded
graph whose metadata does carry the error note.  The two outcomes are
not identical, refuting the claim. -/
theorem C7_counterexample :
    (extractKnowledgeWithLLM
        (Except.ok (cs "I could not produce structured output."))
        (cs "doc1") 5).toOption.map
      (fun kg => (kg.entities.length, kg.relations.length,
                  (dictGetOpt kg.metadata (cs "error")).isSome, kg.id))
      = some (0, 0, false, cs "kg_doc1_5") ∧
    (extractKnowledgeWithLLM (Except.error (cs "boom"))
        (cs "doc1") 5).toOption.map
      (fun kg => (kg.entities.length,
                  (dictGetOpt kg.metadata (cs "error")).isSome))
      = some (0, true) := by
  exact ⟨rfl, rfl⟩

/-- If no candidate parses, scanning the candidates yields nothing. -/
theorem firstJsonParse_none (l : List Str) (h : ∀ m ∈ l, jsonParse m = none) :
    firstJsonParse l = none := by
  induction l with
  | nil => rfl
  | cons a rest ih =>
    unfold firstJsonParse
    rw [h a (by simp)]
    exact ih (fun m hm => h m (by simp [hm]))

/-- C8: `_parse_llm_response` is total (it is a Lean function, and in the
source every `json.loads` sits inside `try/except` while the regex scans
cannot raise), and for an input that is not valid JSON and contains no
recoverable JSON fragment — no brace-pattern candidate and no code-block
candidate parses — it returns the empty triple. -/
theorem C8_total_failure_returns_empty_triple (s : Str)
    (h1 : jsonParse s = none)
    (h2 : ∀ m ∈ findBraceMatches s, jsonParse m = none)
    (h3 : ∀ m ∈ findCodeBlockMatches s, jsonParse m = none) :
    parseLLMResponse s = emptyTriple := by
  have hfb := firstJsonParse_none _ h2
  have hfc := firstJsonParse_none _ h3
  unfold parseLLMResponse
  rw [h1]
  by_cases hb : (findBraceMatches s).isEmpty <;> simp [hb, hfb, hfc]

/-- Witness for C8 at the concrete garbage input `hello world!`. -/
theorem C8_witness :
    jsonParse (cs "hello world!") = none ∧
    parseLLMResponse (cs "hello world!") = emptyTriple := by
  refine ⟨rfl, ?_⟩
  exact C8_total_failure_returns_empty_triple (cs "hello world!") rfl
    (fun m hm => by
      rw [show findBraceMatches (cs "hello world!") = [] from rfl] at hm
      cases hm)
    (fun m hm => by
      rw [show findCodeBlockMatches (cs "hello world!") = [] from rfl] at hm
      cases hm)

/-- One entity-merge step either leaves the merged graph's entity list
unchanged (match found) or appends the incoming reference itself; it
never touches the relation list. -/
theorem mergeOneEntity_refs (st : PyState) (merged : KnowledgeGraphObj)
    (emap : List (Str × Str)) (er : Nat) :
    ((mergeOneEntity (st, merged, emap) er).2.1.entityRefs = merged.entityRefs ∨
     (mergeOneEntity (st, merged, emap) er).2.1.entityRefs
        = merged.entityRefs ++ [er]) ∧
    (mergeOneEntity (st, merged, emap) er).2.1.relRefs = merged.relRefs := by
  rcases hfm : findMatchLoop st merged.entityRefs er with ⟨st1, found⟩
  cases found <;> simp [mergeOneEntity, hfm]

/-- One relation-merge step either leaves the accumulator unchanged
(duplicate triple) or appends one freshly allocated reference; it never
touches the entity list. -/
theorem mergeOneRelation_refs (st : PyState) (merged : KnowledgeGraphObj)
    (emap : List (Str × Str)) (rr : Nat) :
    ((mergeOneRelation (st, merged, emap) rr).2.1.relRefs = merged.relRefs ∨
     (mergeOneRelation (st, merged, emap) rr).2.1.relRefs
        = merged.relRefs ++ [st.rels.length]) ∧
    (mergeOneRelation (st, merged, emap) rr).2.1.entityRefs
      = merged.entityRefs := by
  simp only [mergeOneRelation]
  split <;> simp [tick]

/-- Over the whole entity loop: the initial entity references stay a
prefix, every final entity reference comes from the initial list or the
processed list, and the relation list is untouched. -/
theorem entityFold_refs (l : List Nat)
    (acc : PyState × KnowledgeGraphObj × List (Str × Str)) :
    acc.2.1.entityRefs <+: (l.foldl mergeOneEntity acc).2.1.entityRefs ∧
    (l.foldl mergeOneEntity acc).2.1.relRefs = acc.2.1.relRefs ∧
    ∀ r ∈ (l.foldl mergeOneEntity acc).2.1.entityRefs,
      r ∈ acc.2.1.entityRefs ∨ r ∈ l := by
  induction l generalizing acc with
  | nil => exact ⟨List.prefix_refl _, rfl, fun r hr => Or.inl hr⟩
  | cons a rest ih =>
    obtain ⟨st, merged, emap⟩ := acc
    have hstep := mergeOneEntity_refs st merged emap a
    have ihs := ih (mergeOneEntity (st, merged, emap) a)
    simp only [List.foldl_cons]
    refine ⟨?_, ?_, ?_⟩
    · refine List.IsPrefix.trans ?_ ihs.1
      rcases hstep.1 with h | h
      · rw [h]
      · rw [h]
        exact List.prefix_append _ _
    · rw [ihs.2.1, hstep.2]
    · intro r hr
      rcases ihs.2.2 r hr with h | h
      · rcases hstep.1 with he | he
        · rw [he] at h
          exact Or.inl h
        · rw [he] at h
          rcases List.mem_append.mp h with h2 | h2
          · exact Or.inl h2
          · simp at h2
            subst h2
            exact Or.inr (by simp)
      · exact Or.inr (by simp [h])

/-- Over the whole relation loop: the initial relation references stay a
prefix and the entity list is untouched. -/
theorem relFold_refs (l : List Nat)
    (acc : PyState × KnowledgeGraphObj × List (Str × Str)) :
    acc.2.1.relRefs <+: (l.foldl mergeOneRelation acc).2.1.relRefs ∧
    (l.foldl mergeOneRelation acc).2.1.entityRefs = acc.2.1.entityRefs := by
  induction l generalizing acc with
  | nil => exact ⟨List.prefix_refl _, rfl⟩
  | cons a rest ih =>
    obtain ⟨st, merged, emap⟩ := acc
    have hstep := mergeOneRelation_refs st merged emap a
    have ihs := ih (mergeOneRelation (st, merged, emap) a)
    simp only [List.foldl_cons]
    refine ⟨List.IsPrefix.trans ?_ ihs.1, by rw [ihs.2, hstep.2]⟩
    rcases hstep.1 with h | h
    · rw [h]
    · rw [h]
      exact List.prefix_append _ _

/-- C3 amended: `merge_with` returns a new graph object, but that object
shares its contents with the inputs: base's entity and relation object
references are a prefix of the result's (the very same store objects, as
also mutated in `C3_counterexample`), and every entity object of the
result is one of base's or other's — none is a copy. -/
theorem C3_amended_sharing (st : PyState) (base other : KnowledgeGraphObj)
    (me mr : Bool) :
    base.entityRefs <+: (mergeWith st base other me mr).2.entityRefs ∧
    base.relRefs <+: (mergeWith st base other me mr).2.relRefs ∧
    ∀ r ∈ (mergeWith st base other me mr).2.entityRefs,
      r ∈ base.entityRefs ∨ r ∈ other.entityRefs := by
  unfold mergeWith
  cases me with
  | false =>
    simp [tick]
    exact fun r hr => Or.inl hr
  | true =>
    cases mr with
    | false =>
      simp only [tick, Bool.false_eq_true, if_true, if_false]
      have h := entityFold_refs other.entityRefs
        ({ st with clock := st.clock + 1 },
         { id := base.id, name := base.name, description := base.description,
           created_at := st.clock, updated_at := st.clock,
           entityRefs := base.entityRefs, relRefs := base.relRefs,
           metadata := base.metadata }, [])
      exact ⟨h.1, by rw [h.2.1], h.2.2⟩
    | true =>
      simp only [tick, if_true]
      have h := entityFold_refs other.entityRefs
        ({ st with clock := st.clock + 1 },
         { id := base.id, name := base.name, description := base.description,
           created_at := st.clock, updated_at := st.clock,
           entityRefs := base.entityRefs, relRefs := base.relRefs,
           metadata := base.metadata }, [])
      have h2 := relFold_refs other.relRefs
        (other.entityRefs.foldl mergeOneEntity
          ({ st with clock := st.clock + 1 },
           { id := base.id, name := base.name, description := base.description,
             created_at := st.clock, updated_at := st.clock,
             entityRefs := base.entityRefs, relRefs := base.relRefs,
             metadata := base.metadata }, []))
      refine ⟨?_, ?_, ?_⟩
      · rw [h2.2]
        exact h.1
      · refine List.IsPrefix.trans ?_ h2.1
        rw [h.2.1]
      · intro r hr
        rw [h2.2] at hr
        exact h.2.2 r hr

/-- C6 amended: relation merging is not independent of `merge_entities`.
(1) With `merge_entities` false the `merge_relations` flag has no effect
whatsoever; (2) with `merge_entities` true and `merge_relations` false no
relation is merged; (3) when the relation loop does run, one step
rewrites the endpoints through the id map, skips exactly when the
accumulated graph already holds a relation with the same
`(type, source, target)` triple, and otherwise appends a fresh relation
object with the rewritten endpoints; (4) ids absent from the map pass
through unchanged. -/
theorem C6_amended_flag_dependence :
    (∀ st b o mr, mergeWith st b o false mr = mergeWith st b o false false) ∧
    (∀ st b o, (mergeWith st b o true false).2.relRefs = b.relRefs) ∧
    (∀ st (merged : KnowledgeGraphObj) (emap : List (Str × Str)) (rr : Nat),
      ((∃ x ∈ merged.relRefs,
          ((getRel st x).type = (getRel st rr).type ∧
           (getRel st x).source
             = strDictGetD emap (getRel st rr).source (getRel st rr).source) ∧
          (getRel st x).target
             = strDictGetD emap (getRel st rr).target (getRel st rr).target) →
        mergeOneRelation (st, merged, emap) rr = (st, merged, emap)) ∧
      ((¬ ∃ x ∈ merged.relRefs,
          ((getRel st x).type = (getRel st rr).type ∧
           (getRel st x).source
             = strDictGetD emap (getRel st rr).source (getRel st rr).source) ∧
          (getRel st x).target
             = strDictGetD emap (getRel st rr).target (getRel st rr).target) →
        (mergeOneRelation (st, merged, emap) rr).2.1.relRefs
            = merged.relRefs ++ [st.rels.length] ∧
        (getRel (mergeOneRelation (st, merged, emap) rr).1 st.rels.length).source
            = strDictGetD emap (getRel st rr).source (getRel st rr).source ∧
        (getRel (mergeOneRelation (st, merged, emap) rr).1 st.rels.length).target
            = strDictGetD emap (getRel st rr).target (getRel st rr).target ∧
        (getRel (mergeOneRelation (st, merged, emap) rr).1 st.rels.length).type
            = (getRel st rr).type ∧
        (getRel (mergeOneRelation (st, merged, emap) rr).1 st.rels.length).id
            = (getRel st rr).id)) ∧
    (∀ (emap : List (Str × Str)) (k : Str),
      (∀ p ∈ emap, p.1 ≠ k) → strDictGetD emap k k = k) := by
  refine ⟨?_, ?_, ?_, ?_⟩
  · intro st b o mr
    unfold mergeWith
    simp
  · intro st b o
    unfold mergeWith
    simp only [if_true, Bool.false_eq_true, if_false]
    have h := entityFold_refs o.entityRefs
      ((tick st).2,
       { id := b.id, name := b.name, description := b.description,
         created_at := (tick st).1, updated_at := (tick st).1,
         entityRefs := b.entityRefs, relRefs := b.relRefs,
         metadata := b.metadata }, [])
    exact h.2.1
  · intro st merged emap rr
    constructor
    · intro h
      have hdup : (merged.relRefs.any fun r =>
          (getRel st r).type == (getRel st rr).type &&
          ((getRel st r).source
            == strDictGetD emap (getRel st rr).source (getRel st rr).source) &&
          ((getRel st r).target
            == strDictGetD emap (getRel st rr).target (getRel st rr).target)) = true := by
        rw [List.any_eq_true]
        obtain ⟨x, hx, ⟨h1, h2⟩, h3⟩ := h
        exact ⟨x, hx, by simp [h1, h2, h3]⟩
      simp only [mergeOneRelation]
      rw [hdup]
      simp
    · intro h
      have hdup : (merged.relRefs.any fun r =>
          (getRel st r).type == (getRel st rr).type &&
          ((getRel st r).source
            == strDictGetD emap (getRel st rr).source (getRel st rr).source) &&
          ((getRel st r).target
            == strDictGetD emap (getRel st rr).target (getRel st rr).target)) = false := by
        rw [List.any_eq_false]
        intro x hx hcontra
        simp only [Bool.and_eq_true, beq_iff_eq] at hcontra
        exact h ⟨x, hx, ⟨hcontra.1.1, hcontra.1.2⟩, hcontra.2⟩
      simp only [mergeOneRelation]
      rw [hdup]
      simp only [Bool.false_eq_true, if_false]
      refine ⟨by simp [tick], ?_, ?_, ?_, ?_⟩ <;>
        simp [tick, getRel, List.getD_append_right]
  · intro emap k hk
    unfold strDictGetD
    rw [List.find?_eq_none.mpr]
    intro p hp
    simp [hk p hp]

/-- Lookup on a nonempty dict: head key first. -/
theorem dictGetOpt_cons (p : Str × JVal) (rest : List (Str × JVal)) (k : Str) :
    dictGetOpt (p :: rest) k
      = if p.1 == k then some p.2 else dictGetOpt rest k := by
  by_cases h : (p.1 == k) = true <;> simp [dictGetOpt, List.find?, h]

/-- Overwriting an existing key: lookup of that key sees the new value. -/
theorem dictSetMap_lookup_self (d : List (Str × JVal)) (k : Str) (v : JVal) :
    (d.any fun p => p.1 == k) = true →
    dictGetOpt (d.map fun p => if p.1 == k then (k, v) else p) k = some v := by
  induction d with
  | nil => intro h; simp at h
  | cons p rest ih =>
    intro h
    rw [List.map_cons]
    by_cases hp : (p.1 == k) = true
    · rw [if_pos hp, dictGetOpt_cons]
      simp
    · rw [if_neg hp, dictGetOpt_cons]
      simp only [List.any_cons, hp, Bool.false_or] at h
      rw [if_neg hp]
      exact ih h

/-- Overwriting a key: lookups of other keys are unchanged. -/
theorem dictSetMap_lookup_ne (d : List (Str × JVal)) (k k2 : Str) (v : JVal)
    (h2 : ¬ k2 = k) :
    dictGetOpt (d.map fun p => if p.1 == k then (k, v) else p) k2
      = dictGetOpt d k2 := by
  have hkk2 : (k == k2) = false := by
    rw [beq_eq_false_iff_ne]
    intro hx
    exact h2 hx.symm
  induction d with
  | nil => rfl
  | cons p rest ih =>
    rw [List.map_cons]
    by_cases hp : (p.1 == k) = true
    · have hpk : p.1 = k := by simpa using hp
      have hpk2 : (p.1 == k2) = false := by rw [hpk]; exact hkk2
      rw [if_pos hp, dictGetOpt_cons, dictGetOpt_cons, hkk2, hpk2]
      simp only [Bool.false_eq_true, if_false]
      exact ih
    · rw [if_neg hp, dictGetOpt_cons, dictGetOpt_cons]
      by_cases hq : (p.1 == k2) = true
      · rw [if_pos hq, if_pos hq]
      · rw [if_neg hq, if_neg hq]
        exact ih

/-- A key absent from the dict looks up to nothing. -/
theorem dictGetOpt_eq_none_of_not_mem (d : List (Str × JVal)) (k : Str)
    (h : k ∉ d.map Prod.fst) : dictGetOpt d k = none := by
  have hf : List.find? (fun p => p.1 == k) d = none := by
    rw [List.find?_eq_none]
    intro p hp
    simp only [beq_iff_eq]
    intro he
    exact h (he ▸ List.mem_map_of_mem Prod.fst hp)
  simp [dictGetOpt, hf]

/-- `d[k] = v` makes `k` look up to `v`. -/
theorem dictGetOpt_dictSet_self (d : List (Str × JVal)) (k : Str) (v : JVal) :
    dictGetOpt (dictSet d k v) k = some v := by
  unfold dictSet
  by_cases hany : (d.any fun p => p.1 == k) = true
  · rw [if_pos hany]
    exact dictSetMap_lookup_self d k v hany
  · rw [if_neg hany]
    have hnone : dictGetOpt d k = none := by
      apply dictGetOpt_eq_none_of_not_mem
      intro hmem
      apply hany
      rw [List.any_eq_true]
      obtain ⟨p, hp, hpk⟩ := List.mem_map.mp hmem
      exact ⟨p, hp, by simp [hpk]⟩
    induction d with
    | nil => simp [dictGetOpt, List.find?]
    | cons p rest ih =>
      rw [List.cons_append, dictGetOpt_cons] at *
      by_cases hp : (p.1 == k) = true
      · rw [if_pos hp] at hnone
        simp at hnone
      · rw [if_neg hp] at hnone ⊢
        exact ih (by simp only [List.any_cons] at hany; intro hx; exact hany (by simp [hx])) hnone

/-- `d[k] = v` leaves lookups of other keys unchanged. -/
theorem dictGetOpt_dictSet_ne (d : List (Str × JVal)) (k k2 : Str) (v : JVal)
    (h : k2 ≠ k) : dictGetOpt (dictSet d k v) k2 = dictGetOpt d k2 := by
  unfold dictSet
  by_cases hany : (d.any fun p => p.1 == k) = true
  · rw [if_pos hany]
    exact dictSetMap_lookup_ne d k k2 v h
  · rw [if_neg hany]
    induction d with
    | nil =>
      have hkk2 : (k == k2) = false := by
        rw [beq_eq_false_iff_ne]
        intro hx
        exact h hx.symm
      simp [dictGetOpt, List.find?, hkk2]
    | cons p rest ih =>
      rw [List.cons_append, dictGetOpt_cons, dictGetOpt_cons]
      by_cases hq : (p.1 == k2) = true
      · rw [if_pos hq, if_pos hq]
      · rw [if_neg hq, if_neg hq]
        exact ih (by simp only [List.any_cons] at hany; intro hx; exact hany (by simp [hx]))

/-- In `{**a, **b}` a key not in `b` looks up to `a`'s value. -/
theorem dictMerge_lookup_left (a b : List (Str × JVal)) (k : Str)
    (h : dictGetOpt b k = none) :
    dictGetOpt (dictMerge a b) k = dictGetOpt a k := by
  induction b generalizing a with
  | nil => rfl
  | cons p rest ih =>
    rw [dictGetOpt_cons] at h
    by_cases hp : (p.1 == k) = true
    · rw [if_pos hp] at h
      simp at h
    · rw [if_neg hp] at h
      unfold dictMerge
      rw [List.foldl_cons]
      have step := ih (dictSet a p.1 p.2) h
      unfold dictMerge at step
      rw [step]
      apply dictGetOpt_dictSet_ne
      intro hx
      exact hp (by simp [hx])

/-- In `{**a, **b}` a key of `b` (whose keys are distinct, as in a real
Python dict) looks up to `b`'s value. -/
theorem dictMerge_lookup_right (a b : List (Str × JVal)) (k : Str) (v : JVal)
    (hnodup : (b.map Prod.fst).Nodup) (h : dictGetOpt b k = some v) :
    dictGetOpt (dictMerge a b) k = some v := by
  induction b generalizing a with
  | nil => simp [dictGetOpt, List.find?] at h
  | cons p rest ih =>
    simp only [List.map_cons, List.nodup_cons] at hnodup
    rw [dictGetOpt_cons] at h
    unfold dictMerge
    rw [List.foldl_cons]
    by_cases hp : (p.1 == k) = true
    · rw [if_pos hp] at h
      have hpk : p.1 = k := by simpa using hp
      have hv : p.2 = v := by simpa using h
      have hnone : dictGetOpt rest k = none := by
        apply dictGetOpt_eq_none_of_not_mem
        rw [← hpk]
        exact hnodup.1
      have step := dictMerge_lookup_left (dictSet a p.1 p.2) rest k hnone
      unfold dictMerge at step
      rw [step, hpk, hv]
      exact dictGetOpt_dictSet_self _ _ _
    · rw [if_neg hp] at h
      exact ih (dictSet a p.1 p.2) hnodup.2 h

/-- Reading back the cell just written. -/
theorem getEnt_setEnt_self (st : PyState) (r : Nat) (e : Entity)
    (h : r < st.ents.length) : getEnt (setEnt st r e) r = e := by
  simp [getEnt, setEnt, List.getD, List.getElem?_set_self h]

/-- Writing one cell leaves the others unchanged. -/
theorem getEnt_setEnt_ne (st : PyState) (r : Nat) (e : Entity) (j : Nat)
    (h : j ≠ r) : getEnt (setEnt st r e) j = getEnt st j := by
  simp [getEnt, setEnt, List.getD, List.getElem?_set_ne (fun hx => h hx.symm)]

/-- C5 amended: when the incoming entity `e` (at `er`) matches an
existing entity `f` (at `fref`), the in-place update sets `description`
to `e`'s value whenever that value is non-empty — `f`'s value survives
only when `e`'s is empty or `None` — merges the properties with `e`'s
values winning on key collision, and likewise takes `e`'s
`source_document`/`source_table` whenever non-empty; no other store cell
changes in this step and no entity is appended. -/
theorem C5_amended_update_rule (st : PyState) (merged : KnowledgeGraphObj)
    (emap : List (Str × Str)) (er fref : Nat) (st1 : PyState)
    (hfind : findMatchLoop st merged.entityRefs er = (st1, some fref))
    (hlt : fref < st1.ents.length)
    (hnodup : ((getEnt st1 er).properties.map Prod.fst).Nodup) :
    (pyTruthyStr (getEnt st1 er).description = true →
      (getEnt (mergeOneEntity (st, merged, emap) er).1 fref).description
        = (getEnt st1 er).description) ∧
    (pyTruthyStr (getEnt st1 er).description = false →
      (getEnt (mergeOneEntity (st, merged, emap) er).1 fref).description
        = (getEnt st1 fref).description) ∧
    (∀ k v, dictGetOpt (getEnt st1 er).properties k = some v →
      dictGetOpt (getEnt (mergeOneEntity (st, merged, emap) er).1 fref).properties k
        = some v) ∧
    (∀ k, dictGetOpt (getEnt st1 er).properties k = none →
      dictGetOpt (getEnt (mergeOneEntity (st, merged, emap) er).1 fref).properties k
        = dictGetOpt (getEnt st1 fref).properties k) ∧
    (pyTruthyStr (getEnt st1 er).source_document = true →
      (getEnt (mergeOneEntity (st, merged, emap) er).1 fref).source_document
        = (getEnt st1 er).source_document) ∧
    (pyTruthyStr (getEnt st1 er).source_document = false →
      (getEnt (mergeOneEntity (st, merged, emap) er).1 fref).source_document
        = (getEnt st1 fref).source_document) ∧
    (pyTruthyStr (getEnt st1 er).source_table = true →
      (getEnt (mergeOneEntity (st, merged, emap) er).1 fref).source_table
        = (getEnt st1 er).source_table) ∧
    (pyTruthyStr (getEnt st1 er).source_table = false →
      (getEnt (mergeOneEntity (st, merged, emap) er).1 fref).source_table
        = (getEnt st1 fref).source_table) ∧
    (∀ j, j ≠ fref →
      getEnt (mergeOneEntity (st, merged, emap) er).1 j = getEnt st1 j) ∧
    (mergeOneEntity (st, merged, emap) er).2.1 = merged := by
  have hlt2 : fref < ((tick st1).2).ents.length := by
    show fref < st1.ents.length
    exact hlt
  have htick : ∀ r, getEnt (tick st1).2 r = getEnt st1 r := fun r => rfl
  simp only [mergeOneEntity, hfind]
  rw [getEnt_setEnt_self _ _ _ hlt2]
  simp only [htick]
  refine ⟨?_, ?_, ?_, ?_, ?_, ?_, ?_, ?_, ?_, ?_⟩
  · intro ht
    simp [pyOrStr, ht]
  · intro ht
    simp [pyOrStr, ht]
  · intro k v hk
    exact dictMerge_lookup_right (getEnt st1 fref).properties
      (getEnt st1 er).properties k v hnodup hk
  · intro k hk
    exact dictMerge_lookup_left (getEnt st1 fref).properties
      (getEnt st1 er).properties k hk
  · intro ht
    simp [pyOrStr, ht]
  · intro ht
    simp [pyOrStr, ht]
  · intro ht
    simp [pyOrStr, ht]
  · intro ht
    simp [pyOrStr, ht]
  · intro j hj
    rw [getEnt_setEnt_ne _ _ _ _ hj]
    exact htick j
  · exact trivial

/-- Resident entity for the C5 amended witness. -/
def entW5f : Entity :=
  { id := cs "f", name := cs "pump", type := EntityType.equipment,
    description := some (cs "old doc") }

/-- Incoming entity for the C5 amended witness. -/
def entW5e : Entity :=
  { id := cs "e", name := cs "pump", type := EntityType.equipment,
    description := some (cs "new doc") }

/-- Store for the C5 amended witness. -/
def stW5 : PyState := { ents := [entW5f, entW5e], rels := [], clock := 0 }

/-- Merged graph accumulator for the C5 amended witness. -/
def mergedW5 : KnowledgeGraphObj := { id := cs "m5", name := cs "m5", entityRefs := [0] }

/-- The store after the match search (both entities have cached their
normalized names). -/
def stW5n : PyState :=
  { ents := [{ entW5f with normalized_name := some (cs "pump") },
             { entW5e with normalized_name := some (cs "pump") }],
    rels := [], clock := 0 }

/-- Witness for the C5 amended update rule at a concrete store. -/
theorem C5_amended_witness :
    (getEnt (mergeOneEntity (stW5, mergedW5, []) 1).1 0).description
      = (getEnt stW5n 1).description ∧
    (getEnt stW5n 1).description = some (cs "new doc") := by
  refine ⟨?_, rfl⟩
  have h := C5_amended_update_rule stW5 mergedW5 [] 1 0 stW5n rfl
    (by decide) (by decide)
  exact h.1 (by decide)

/-- Store for the C6 amended witness: a single relation, already present
in the accumulator, so the merge step must skip it. -/
def stW6 : PyState :=
  { ents := [],
    rels := [{ id := cs "r", type := RelationType.causes,
               source := cs "x", target := cs "y" }],
    clock := 0 }

/-- Accumulator graph for the C6 amended witness. -/
def mergedW6 : KnowledgeGraphObj := { id := cs "m6", name := cs "m6", relRefs := [0] }

/-- Witness for the C6 amended characterization at a concrete store:
the duplicate triple is skipped, and an unmapped id passes through. -/
theorem C6_amended_witness :
    mergeOneRelation (stW6, mergedW6, []) 0 = (stW6, mergedW6, []) ∧
    strDictGetD [] (cs "x") (cs "x") = cs "x" := by
  constructor
  · exact (C6_amended_flag_dependence.2.2.1 stW6 mergedW6 [] 0).1
      ⟨0, by decide, ⟨rfl, rfl⟩, rfl⟩
  · exact C6_amended_flag_dependence.2.2.2 [] (cs "x") (fun p hp => by cases hp)

/-- C7 amended: when the reply yields no structured data (the parser
returns the empty triple), extraction does not raise and returns a graph
with zero entities and zero relations — but its metadata carries the
source document and empty cypher statements, not an error note, and its
id has the normal `kg_` prefix.  Only a transport failure produces the
degraded graph whose metadata carries the `error` note. -/
theorem C7_amended_parse_failure_shape (s doc : Str) (ts : Nat)
    (h : parseLLMResponse s = emptyTriple) :
    extractKnowledgeWithLLM (Except.ok s) doc ts
      = Except.ok
          { id := cs "kg_" ++ doc ++ cs "_" ++ natToStr ts,
            name := cs "知识图谱_" ++ doc,
            description := some (cs "从文档 " ++ doc ++ cs " 中抽取的知识"),
            created_at := ts, updated_at := ts,
            entities := [], relations := [],
            metadata := [(cs "source_document", JVal.str doc),
                         (cs "cypher_statements", JVal.arr [])] } ∧
    (∀ e, (extractKnowledgeWithLLM (Except.error e) doc ts).toOption.map
        (fun kg => (kg.entities, kg.relations,
                    (dictGetOpt kg.metadata (cs "error")).isSome))
      = some ([], [], true)) := by
  constructor
  · unfold extractKnowledgeWithLLM
    dsimp only
    rw [h]
    rfl
  · intro e
    rfl

/-- Witness for the C7 amended shape at a concrete unparseable reply. -/
theorem C7_amended_witness :
    extractKnowledgeWithLLM (Except.ok (cs "no json here")) (cs "d") 7
      = Except.ok
          { id := cs "kg_" ++ cs "d" ++ cs "_" ++ natToStr 7,
            name := cs "知识图谱_" ++ cs "d",
            description := some (cs "从文档 " ++ cs "d" ++ cs " 中抽取的知识"),
            created_at := 7, updated_at := 7,
            entities := [], relations := [],
            metadata := [(cs "source_document", JVal.str (cs "d")),
                         (cs "cypher_statements", JVal.arr [])] } := by
  exact (C7_amended_parse_failure_shape (cs "no json here") (cs "d") 7 rfl).1

/-- The deduplication identity of the merger: effective normalized name
paired with the entity type. -/
def entKey (e : Entity) : Str × EntityType := (entityEffectiveNorm e, e.type)

/-- `normalize_name` returns the effective normalized name. -/
theorem normEntAt_fst (st : PyState) (r : Nat) :
    (normEntAt st r).1 = entityEffectiveNorm (getEnt st r) := by
  unfold normEntAt entityEffectiveNorm
  cases h : (getEnt st r).normalized_name with
  | none => simp [h]
  | some s => cases s <;> simp [h]

/-- States related by the mutations of the entity loop: same relation
store, same entity-store length, pointwise equal keys and ids. -/
def sameEnts (st st2 : PyState) : Prop :=
  st2.rels = st.rels ∧ st2.ents.length = st.ents.length ∧
  ∀ j, entKey (getEnt st2 j) = entKey (getEnt st j) ∧
       (getEnt st2 j).id = (getEnt st j).id

/-- `sameEnts` is reflexive. -/
theorem sameEnts_refl (st : PyState) : sameEnts st st :=
  ⟨rfl, rfl, fun _ => ⟨rfl, rfl⟩⟩

/-- `sameEnts` is transitive. -/
theorem sameEnts_trans {a b c : PyState} (h1 : sameEnts a b)
    (h2 : sameEnts b c) : sameEnts a c :=
  ⟨h2.1.trans h1.1, h2.2.1.trans h1.2.1,
   fun j => ⟨(h2.2.2 j).1.trans (h1.2.2 j).1, (h2.2.2 j).2.trans (h1.2.2 j).2⟩⟩

/-- The clock tick does not move entities or relations. -/
theorem tick_sameEnts (st : PyState) : sameEnts st (tick st).2 :=
  ⟨rfl, rfl, fun _ => ⟨rfl, rfl⟩⟩

/-- Writing an entity with unchanged key and id preserves `sameEnts`. -/
theorem setEnt_sameEnts (st : PyState) (r : Nat) (e2 : Entity)
    (hk : entKey e2 = entKey (getEnt st r)) (hid : e2.id = (getEnt st r).id) :
    sameEnts st (setEnt st r e2) := by
  refine ⟨rfl, by simp [setEnt], fun j => ?_⟩
  by_cases hj : j = r
  · subst hj
    by_cases hr : j < st.ents.length
    · rw [getEnt_setEnt_self st j e2 hr]
      exact ⟨hk, hid⟩
    · have hnone : st.ents[j]? = none :=
        List.getElem?_eq_none (Nat.le_of_not_lt hr)
      have hnone2 : (st.ents.set j e2)[j]? = none :=
        List.getElem?_eq_none (by rw [List.length_set]; exact Nat.le_of_not_lt hr)
      have : getEnt (setEnt st j e2) j = getEnt st j := by
        simp [getEnt, setEnt, List.getD, hnone, hnone2]
      rw [this]
      exact ⟨rfl, rfl⟩
  · rw [getEnt_setEnt_ne st r e2 j hj]
    exact ⟨rfl, rfl⟩

/-- Caching the freshly computed normalization keeps the effective
normalized name, provided no non-empty value was cached before. -/
theorem entityEffectiveNorm_cache (e : Entity)
    (h : e.normalized_name = none ∨ e.normalized_name = some []) :
    entityEffectiveNorm { e with normalized_name := some (pyNormalizeName e.name) }
      = entityEffectiveNorm e := by
  unfold entityEffectiveNorm
  rcases h with h | h <;> rw [h] <;> cases hn : pyNormalizeName e.name <;> simp [hn]

/-- `normalize_name` caching preserves `sameEnts`. -/
theorem normEntAt_sameEnts (st : PyState) (r : Nat) :
    sameEnts st (normEntAt st r).2 := by
  unfold normEntAt
  dsimp only
  cases h : (getEnt st r).normalized_name with
  | none =>
    apply setEnt_sameEnts
    · exact congrArg (fun n => (n, (getEnt st r).type))
        (entityEffectiveNorm_cache (getEnt st r) (Or.inl h))
    · rfl
  | some s =>
    cases s with
    | nil =>
      apply setEnt_sameEnts
      · exact congrArg (fun n => (n, (getEnt st r).type))
          (entityEffectiveNorm_cache (getEnt st r) (Or.inr h))
      · rfl
    | cons c rest =>
      exact sameEnts_refl st

/-- `find?` on a cons, as an if. -/
theorem find?_cons_eq {α : Type} (p : α → Bool) (a : α) (l : List α) :
    List.find? p (a :: l) = if p a then some a else List.find? p l := by
  by_cases h : p a <;> simp [List.find?, h]

/-- Two predicates agreeing on a list find the same element. -/
theorem find?_congr_list {α : Type} (p q : α → Bool) (l : List α)
    (h : ∀ x ∈ l, p x = q x) : l.find? p = l.find? q := by
  induction l with
  | nil => rfl
  | cons a rest ih =>
    rw [find?_cons_eq, find?_cons_eq, h a (by simp),
        ih (fun x hx => h x (by simp [hx]))]

/-- With pairwise distinct images, the first element whose image matches
a member's image is that member itself. -/
theorem find?_key_self {α β : Type} [DecidableEq β] (f : α → β) (l : List α)
    (a : α) (ha : a ∈ l) (hnodup : (l.map f).Nodup) :
    l.find? (fun x => decide (f x = f a)) = some a := by
  induction l with
  | nil => cases ha
  | cons b rest ih =>
    simp only [List.map_cons, List.nodup_cons] at hnodup
    rw [find?_cons_eq]
    by_cases hb : f b = f a
    · rcases List.mem_cons.mp ha with h | h
      · rw [h]
        simp
      · exact absurd (hb ▸ List.mem_map_of_mem f h) hnodup.1
    · have hab : a ∈ rest := by
        rcases List.mem_cons.mp ha with h | h
        · exact absurd (by rw [h]) hb
        · exact h
      rw [if_neg (by simp [hb])]
      exact ih hab hnodup.2

/-- The match search preserves the store up to `sameEnts`. -/
theorem findMatchLoop_sameEnts (refs : List Nat) (st : PyState) (er : Nat) :
    sameEnts st (findMatchLoop st refs er).1 := by
  induction refs generalizing st with
  | nil => exact sameEnts_refl st
  | cons r rest ih =>
    simp only [findMatchLoop]
    rcases h1 : normEntAt st r with ⟨en, st1⟩
    rcases h2 : normEntAt st1 er with ⟨nn, st2⟩
    have hs1 : sameEnts st st1 := by
      have := normEntAt_sameEnts st r
      rwa [h1] at this
    have hs2 : sameEnts st st2 := by
      have := normEntAt_sameEnts st1 er
      rw [h2] at this
      exact sameEnts_trans hs1 this
    split
    · exact hs2
    · exact sameEnts_trans hs2 (ih st2)

/-- The match search returns the first accumulated entity whose
deduplication key equals the incoming entity's key (keys evaluated
against the pre-search store — the search's own caching writes do not
change any key). -/
theorem findMatchLoop_spec (refs : List Nat) (st : PyState) (er : Nat) :
    (findMatchLoop st refs er).2
      = refs.find? (fun r => decide (entKey (getEnt st r) = entKey (getEnt st er))) := by
  induction refs generalizing st with
  | nil => rfl
  | cons r rest ih =>
    simp only [findMatchLoop]
    rcases h1 : normEntAt st r with ⟨en, st1⟩
    rcases h2 : normEntAt st1 er with ⟨nn, st2⟩
    dsimp only
    have hs1 : sameEnts st st1 := by
      have := normEntAt_sameEnts st r
      rwa [h1] at this
    have hs2 : sameEnts st st2 := by
      have := normEntAt_sameEnts st1 er
      rw [h2] at this
      exact sameEnts_trans hs1 this
    have hen : en = entityEffectiveNorm (getEnt st r) := by
      have := normEntAt_fst st r
      rwa [h1] at this
    have hnn : nn = entityEffectiveNorm (getEnt st er) := by
      have hv := normEntAt_fst st1 er
      rw [h2] at hv
      exact hv.trans (congrArg Prod.fst ((hs1.2.2 er).1))
    have htr : (getEnt st2 r).type = (getEnt st r).type :=
      congrArg Prod.snd ((hs2.2.2 r).1)
    have hter : (getEnt st2 er).type = (getEnt st er).type :=
      congrArg Prod.snd ((hs2.2.2 er).1)
    have hcond : (en == nn && ((getEnt st2 r).type == (getEnt st2 er).type))
        = decide (entKey (getEnt st r) = entKey (getEnt st er)) := by
      rw [hen, hnn, htr, hter]
      by_cases hx : entityEffectiveNorm (getEnt st r)
          = entityEffectiveNorm (getEnt st er) <;>
        by_cases hy : (getEnt st r).type = (getEnt st er).type <;>
          simp [entKey, Prod.ext_iff, hx, hy]
    rw [hcond, find?_cons_eq]
    by_cases hc : decide (entKey (getEnt st r) = entKey (getEnt st er)) = true
    · rw [if_pos hc, if_pos hc]
    · rw [if_neg hc, if_neg hc]
      rw [ih st2]
      exact find?_congr_list _ _ rest (fun x _ => by
        rw [(hs2.2.2 x).1, (hs2.2.2 er).1])

/-- Inserting an identity pair keeps the id map an identity map. -/
theorem strDictSet_id (d : List (Str × Str)) (k : Str)
    (hd : ∀ p ∈ d, p.2 = p.1) : ∀ p ∈ strDictSet d k k, p.2 = p.1 := by
  intro p hp
  unfold strDictSet at hp
  split at hp
  · rcases List.mem_map.mp hp with ⟨q, hq, hqe⟩
    by_cases hqk : (q.1 == k) = true
    · rw [if_pos hqk] at hqe
      rw [← hqe]
    · rw [if_neg hqk] at hqe
      rw [← hqe]
      exact hd q hq
  · rcases List.mem_append.mp hp with h | h
    · exact hd p h
    · simp only [List.mem_singleton] at h
      rw [h]

/-- Lookup in an identity map is the identity (also on absent keys). -/
theorem strDictGetD_id (d : List (Str × Str)) (k : Str)
    (hd : ∀ p ∈ d, p.2 = p.1) : strDictGetD d k k = k := by
  unfold strDictGetD
  cases hf : d.find? (fun p => p.1 == k) with
  | none => rfl
  | some p =>
    have hp := List.mem_of_find?_eq_some hf
    have hpk : p.1 = k := by
      have := List.find?_some hf
      simpa using this
    show p.2 = k
    rw [hd p hp, hpk]

/-- Self-merge entity loop, general case: every incoming entity is one of
the accumulated references, so it always finds a match — the merged
graph object (in particular its entity list) never changes, and the
store evolves only by key- and id-preserving updates. -/
theorem selfMerge_entity_invariant (gref : List Nat) (st0 : PyState) :
    ∀ (l : List Nat), (∀ x ∈ l, x ∈ gref) →
    ∀ (st : PyState) (merged : KnowledgeGraphObj) (emap : List (Str × Str)),
      merged.entityRefs = gref → sameEnts st0 st →
      (l.foldl mergeOneEntity (st, merged, emap)).2.1 = merged ∧
      sameEnts st0 (l.foldl mergeOneEntity (st, merged, emap)).1 := by
  intro l
  induction l with
  | nil => exact fun _ st merged emap _ hs => ⟨rfl, hs⟩
  | cons a rest ih =>
    intro hsub st merged emap hm hs
    have ha : a ∈ gref := hsub a (by simp)
    rcases hfl : findMatchLoop st merged.entityRefs a with ⟨st1, found⟩
    have hspec : found = merged.entityRefs.find?
        (fun r => decide (entKey (getEnt st r) = entKey (getEnt st a))) := by
      have := findMatchLoop_spec merged.entityRefs st a
      rwa [hfl] at this
    have hfound : found.isSome := by
      rw [hspec, hm, List.find?_isSome]
      exact ⟨a, ha, by simp⟩
    cases found with
    | none => simp at hfound
    | some fref =>
      have hs1 : sameEnts st0 st1 := by
        have := findMatchLoop_sameEnts merged.entityRefs st a
        rw [hfl] at this
        exact sameEnts_trans hs this
      rw [List.foldl_cons]
      simp only [mergeOneEntity, hfl, tick]
      apply ih (fun x hx => hsub x (by simp [hx]))
      · exact hm
      · exact sameEnts_trans hs1 (setEnt_sameEnts _ _ _ rfl rfl)

/-- Self-merge entity loop with pairwise distinct keys: additionally
every incoming entity matches itself, so the id map stays an identity
map. -/
theorem selfMerge_entity_invariant_nodup (gref : List Nat) (st0 : PyState)
    (hnodup : (gref.map (fun r => entKey (getEnt st0 r))).Nodup) :
    ∀ (l : List Nat), (∀ x ∈ l, x ∈ gref) →
    ∀ (st : PyState) (merged : KnowledgeGraphObj) (emap : List (Str × Str)),
      merged.entityRefs = gref → sameEnts st0 st →
      (∀ p ∈ emap, p.2 = p.1) →
      (l.foldl mergeOneEntity (st, merged, emap)).2.1 = merged ∧
      sameEnts st0 (l.foldl mergeOneEntity (st, merged, emap)).1 ∧
      (∀ p ∈ (l.foldl mergeOneEntity (st, merged, emap)).2.2, p.2 = p.1) := by
  intro l
  induction l with
  | nil => exact fun _ st merged emap _ hs hid => ⟨rfl, hs, hid⟩
  | cons a rest ih =>
    intro hsub st merged emap hm hs hid
    have ha : a ∈ gref := hsub a (by simp)
    rcases hfl : findMatchLoop st merged.entityRefs a with ⟨st1, found⟩
    have hspec : found = gref.find?
        (fun r => decide (entKey (getEnt st0 r) = entKey (getEnt st0 a))) := by
      have h0 := findMatchLoop_spec merged.entityRefs st a
      rw [hfl] at h0
      have h1 : found = merged.entityRefs.find?
          (fun r => decide (entKey (getEnt st r) = entKey (getEnt st a))) := h0
      rw [h1, hm]
      exact find?_congr_list _ _ gref (fun x _ => by
        rw [(hs.2.2 x).1, (hs.2.2 a).1])
    have hself : found = some a := by
      rw [hspec]
      exact find?_key_self (fun r => entKey (getEnt st0 r)) gref a ha hnodup
    cases found with
    | none => exact absurd hself (by simp)
    | some fref =>
      have hfa : fref = a := by
        injection hself with h
      have hs1 : sameEnts st0 st1 := by
        have hpres := findMatchLoop_sameEnts merged.entityRefs st a
        rw [hfl] at hpres
        exact sameEnts_trans hs hpres
      rw [List.foldl_cons]
      simp only [mergeOneEntity, hfl, tick]
      rw [hfa]
      apply ih (fun x hx => hsub x (by simp [hx]))
      · exact hm
      · exact sameEnts_trans hs1 (setEnt_sameEnts _ _ _ rfl rfl)
      · exact strDictSet_id emap (getEnt st1 a).id hid

/-- Self-merge relation loop with an identity id map: every incoming
relation's rewritten triple is its own triple, already present, so every
step is skipped and the whole loop is the identity. -/
theorem selfMerge_rel_invariant (st : PyState) (merged : KnowledgeGraphObj)
    (emap : List (Str × Str)) (hid : ∀ p ∈ emap, p.2 = p.1) :
    ∀ (l : List Nat), (∀ x ∈ l, x ∈ merged.relRefs) →
      l.foldl mergeOneRelation (st, merged, emap) = (st, merged, emap) := by
  intro l
  induction l with
  | nil => exact fun _ => rfl
  | cons a rest ih =>
    intro hsub
    have ha := hsub a (by simp)
    have hsrc : strDictGetD emap (getRel st a).source (getRel st a).source
        = (getRel st a).source := strDictGetD_id _ _ hid
    have htgt : strDictGetD emap (getRel st a).target (getRel st a).target
        = (getRel st a).target := strDictGetD_id _ _ hid
    have hdup : (merged.relRefs.any fun r =>
        (getRel st r).type == (getRel st a).type &&
        ((getRel st r).source
          == strDictGetD emap (getRel st a).source (getRel st a).source) &&
        ((getRel st r).target
          == strDictGetD emap (getRel st a).target (getRel st a).target)) = true := by
      rw [List.any_eq_true]
      refine ⟨a, ha, ?_⟩
      rw [hsrc, htgt]
      simp
    have hstep : mergeOneRelation (st, merged, emap) a = (st, merged, emap) := by
      simp only [mergeOneRelation]
      rw [hdup]
      simp
    rw [List.foldl_cons, hstep]
    exact ih (fun x hx => hsub x (by simp [hx]))

/-- C9 amended: merging a graph with itself always preserves the entity
list (every entity finds a match by its own key), and it preserves the
relation list provided the graph's entities have pairwise-distinct
`(normalized_name, type)` keys — then the id map is the identity, every
relation's rewritten triple is its own, and every relation is skipped as
a duplicate.  (`C9_counterexample` shows the relation count grows when
keys collide.) -/
theorem C9_amended_self_merge :
    (∀ (st : PyState) (G : KnowledgeGraphObj),
      (mergeWith st G G true true).2.entityRefs = G.entityRefs) ∧
    (∀ (st : PyState) (G : KnowledgeGraphObj),
      (G.entityRefs.map (fun r => entKey (getEnt st r))).Nodup →
      (mergeWith st G G true true).2.relRefs = G.relRefs) := by
  constructor
  · intro st G
    simp only [mergeWith, tick]
    have hEnt := selfMerge_entity_invariant G.entityRefs
      { ents := st.ents, rels := st.rels, clock := st.clock + 1 }
      G.entityRefs (fun x hx => hx)
      { ents := st.ents, rels := st.rels, clock := st.clock + 1 }
      { id := G.id, name := G.name, description := G.description,
        created_at := st.clock, updated_at := st.clock,
        entityRefs := G.entityRefs, relRefs := G.relRefs,
        metadata := G.metadata }
      [] rfl (sameEnts_refl _)
    refine ((relFold_refs G.relRefs _).2).trans ?_
    exact (congrArg KnowledgeGraphObj.entityRefs hEnt.1).trans rfl
  · intro st G hnodup
    simp only [mergeWith, tick]
    have hEnt := selfMerge_entity_invariant_nodup G.entityRefs
      { ents := st.ents, rels := st.rels, clock := st.clock + 1 }
      hnodup
      G.entityRefs (fun x hx => hx)
      { ents := st.ents, rels := st.rels, clock := st.clock + 1 }
      { id := G.id, name := G.name, description := G.description,
        created_at := st.clock, updated_at := st.clock,
        entityRefs := G.entityRefs, relRefs := G.relRefs,
        metadata := G.metadata }
      [] rfl (sameEnts_refl _) (fun p hp => by cases hp)
    set FE := List.foldl mergeOneEntity
      ({ ents := st.ents, rels := st.rels, clock := st.clock + 1 },
       { id := G.id, name := G.name, description := G.description,
         created_at := st.clock, updated_at := st.clock,
         entityRefs := G.entityRefs, relRefs := G.relRefs,
         metadata := G.metadata }, []) G.entityRefs with hFE
    have hid : ∀ p ∈ FE.2.2, p.2 = p.1 := hEnt.2.2
    have hrr : FE.2.1.relRefs = G.relRefs :=
      (congrArg KnowledgeGraphObj.relRefs hEnt.1).trans rfl
    have hfix := selfMerge_rel_invariant FE.1 FE.2.1 FE.2.2 hid G.relRefs
      (fun x hx => by rw [hrr]; exact hx)
    rw [hfix]
    exact hrr

/-- Store for the C9 amended witness: two entities with distinct keys
and one relation. -/
def stW9 : PyState :=
  { ents := [{ id := cs "1", name := cs "a", type := EntityType.equipment },
             { id := cs "2", name := cs "b", type := EntityType.equipment }],
    rels := [{ id := cs "r", type := RelationType.causes,
               source := cs "1", target := cs "2" }],
    clock := 0 }

/-- Graph for the C9 amended witness. -/
def graphW9 : KnowledgeGraphObj :=
  { id := cs "g", name := cs "g", entityRefs := [0, 1], relRefs := [0] }

/-- Witness for the C9 amended self-merge at a concrete distinct-key
graph. -/
theorem C9_amended_witness :
    (mergeWith stW9 graphW9 graphW9 true true).2.entityRefs = graphW9.entityRefs ∧
    (mergeWith stW9 graphW9 graphW9 true true).2.relRefs = graphW9.relRefs :=
  ⟨C9_amended_self_merge.1 stW9 graphW9,
   C9_amended_self_merge.2 stW9 graphW9 (by decide)⟩

/-- A brace match that consumed its whole input still matches, leaving
any appended text as the rest. -/
theorem scanBrace_append (q : Str) :
    ∀ (flag : Bool) (acc m : Str), scanBrace q flag acc = some (m, []) →
    ∀ r, scanBrace (q ++ r) flag acc = some (m, r) := by
  induction q with
  | nil => intro flag acc m h r; cases h
  | cons c q2 ih =>
    intro flag acc m h r
    rw [List.cons_append]
    unfold scanBrace at h ⊢
    by_cases h1 : c = rbrace
    · rw [if_pos h1] at h ⊢
      cases flag with
      | true => exact ih false (c :: acc) m h r
      | false =>
        have h2 : some ((c :: acc).reverse, q2) = some (m, ([] : Str)) := h
        injection h2 with hpair
        injection hpair with hm hrest
        subst hrest
        show some ((c :: acc).reverse, [] ++ r) = some (m, r)
        rw [hm]
        rfl
    · rw [if_neg h1] at h ⊢
      by_cases h2 : c = lbrace
      · rw [if_pos h2] at h ⊢
        cases flag with
        | true => cases h
        | false => exact ih true (c :: acc) m h r
      · rw [if_neg h2] at h ⊢
        exact ih flag (c :: acc) m h r

/-- Scanning a brace-free text finds nothing. -/
theorem findBraceGo_clean (l : Str) (hl : ∀ c ∈ l, c ≠ lbrace) :
    ∀ fuel, findBraceGo fuel l = [] := by
  induction l with
  | nil => intro fuel; cases fuel <;> rfl
  | cons c rest ih =>
    intro fuel
    cases fuel with
    | zero => rfl
    | succ f =>
      simp only [findBraceGo]
      rw [if_neg (hl c (by simp))]
      exact ih (fun x hx => hl x (by simp [hx])) f

/-- Scanning skips over a brace-free prefix. -/
theorem findBraceGo_skip (l : Str) (hl : ∀ c ∈ l, c ≠ lbrace) :
    ∀ (n : Nat) (r : Str), findBraceGo (l.length + n) (l ++ r) = findBraceGo n r := by
  induction l with
  | nil => intro n r; simp
  | cons c rest ih =>
    intro n r
    rw [show (c :: rest).length + n = Nat.succ (rest.length + n) by
          simp [Nat.succ_eq_add_one]; omega,
        List.cons_append]
    simp only [findBraceGo]
    rw [if_neg (hl c (by simp))]
    exact ih (fun x hx => hl x (by simp [hx])) n r

/-- C4 amended: for a payload wholly matched by the brace-extraction
pattern (balanced braces, nesting depth at most two) that parses as
JSON, the reply wrapped in prose and a fenced code block recovers
exactly the payload the bare text parses to.  (`C4_counterexample`
shows this fails once an entity record nests a `properties` object.) -/
theorem C4_amended_depth_two_roundtrip (p q : Str) (v : JVal)
    (hp : p = lbrace :: q)
    (hscan : scanBrace q false [lbrace] = some (p, []))
    (hjson : jsonParse p = some v) :
    parseLLMResponse (cs "Here is the result:\n```json\n" ++ p ++ cs "\n```") = v ∧
    parseLLMResponse p = v := by
  have hprose : ∀ c ∈ cs "Here is the result:\n```json\n", c ≠ lbrace := by decide
  have htail : ∀ c ∈ cs "\n```", c ≠ lbrace := by decide
  constructor
  · have hW : jsonParse
        (cs "Here is the result:\n```json\n" ++ p ++ cs "\n```") = none := rfl
    have hmatches : findBraceMatches
        (cs "Here is the result:\n```json\n" ++ p ++ cs "\n```") = [p] := by
      unfold findBraceMatches
      rw [List.append_assoc,
          show (cs "Here is the result:\n```json\n" ++ (p ++ cs "\n```")).length
            = (cs "Here is the result:\n```json\n").length
              + (p ++ cs "\n```").length from List.length_append _ _,
          findBraceGo_skip _ hprose _ _, hp, List.cons_append,
          show ((lbrace :: (q ++ cs "\n```"))).length
            = Nat.succ ((q ++ cs "\n```").length) from rfl]
      simp only [findBraceGo]
      rw [if_pos trivial, scanBrace_append q false [lbrace] p hscan (cs "\n```")]
      dsimp only
      rw [findBraceGo_clean (cs "\n```") htail _, hp]
    unfold parseLLMResponse
    rw [hW, hmatches]
    simp [firstJsonParse, hjson]
  · unfold parseLLMResponse
    rw [hjson]

/-- The depth-two payload of the C4 amended witness. -/
def payloadW4 : Str := cs "\x7b\"entities\": [], \"relations\": []\x7d"

/-- Witness for the C4 amended round-trip at a concrete depth-two
payload. -/
theorem C4_amended_witness :
    parseLLMResponse (cs "Here is the result:\n```json\n" ++ payloadW4 ++ cs "\n```")
      = JVal.obj [(cs "entities", JVal.arr []), (cs "relations", JVal.arr [])] ∧
    parseLLMResponse payloadW4
      = JVal.obj [(cs "entities", JVal.arr []), (cs "relations", JVal.arr [])] :=
  C4_amended_depth_two_roundtrip payloadW4
    (cs "\"entities\": [], \"relations\": []\x7d")
    (JVal.obj [(cs "entities", JVal.arr []), (cs "relations", JVal.arr [])])
    rfl rfl rfl
